import Mathlib

/-!
Verification development for the Pac-Man game engine and AI subsystem.
The definitions below are shallow embeddings of the TypeScript source
(`src/engine/AIEngine.ts`, `src/engine/GameEngine.ts`, `src/types/game.ts`,
`src/config/gameConfig.ts`).  JavaScript numbers are modelled as rationals
(`ℚ`) where fractional pixel values occur and as `ℕ`/`ℤ` where the program
only ever produces integers.  JavaScript `Map` objects are modelled as
association lists, and `while` loops as fuel-indexed recursion where the
source loop has no syntactic termination bound.
-/

namespace Pacman

/-- `CellType` from `src/types/game.ts`. -/
inductive Cell where
  | empty
  | wall
  | pellet
  | powerPellet
  | ghostHouse
  | tunnel
  | fruit
deriving DecidableEq, Repr

/-- `Direction` from `src/types/game.ts` (UP, DOWN, LEFT, RIGHT, NONE). -/
inductive Dir where
  | UP
  | DOWN
  | LEFT
  | RIGHT
  | NONE
deriving DecidableEq, Repr

/-- `GhostState` from `src/types/game.ts`. -/
inductive GState where
  | CHASE
  | SCATTER
  | FRIGHTENED
  | EATEN
  | IN_HOUSE
deriving DecidableEq, Repr

/-- `GhostType` from `src/types/game.ts`. -/
inductive GId where
  | BLINKY
  | PINKY
  | INKY
  | CLYDE
deriving DecidableEq, Repr

/-- An integer grid position, the `Position` values fed to the A* path
finder (the claims quantify over grid cells, which are integer pairs). -/
structure GridPos where
  x : ℤ
  y : ℤ
deriving DecidableEq, Repr

/-- A `Position` holding raw JavaScript numbers (world/pixel coordinates),
modelled as rationals. -/
structure PosQ where
  x : ℚ
  y : ℚ
deriving DecidableEq, Repr

/-- A `Velocity` (`dx`, `dy`) in world units. -/
structure Vel where
  dx : ℚ
  dy : ℚ
deriving DecidableEq, Repr

/-- A maze, `CellType[][]` in the source: a list of rows. -/
abbrev Maze := List (List Cell)

/-- `JavaScript Math.round`: rounds half-up, `Math.round x = ⌊x + 1/2⌋`. -/
def jsRound (q : ℚ) : ℤ := ⌊q + 1/2⌋

/-! ### Configuration constants (`src/config/gameConfig.ts`) -/

def MAZE_WIDTH : ℕ := 19
def MAZE_HEIGHT : ℕ := 21
def CELL_SIZE : ℚ := 24
def PACMAN_SPEED : ℚ := 2
def GHOST_SPEED : ℚ := 9/5
def FRIGHTENED_SPEED : ℚ := 6/5
def POWER_PELLET_DURATION : ℤ := 360
def GHOST_FLASH_DURATION : ℤ := 120
def POINTS_PELLET : ℕ := 10
def POINTS_POWER_PELLET : ℕ := 50
def POINTS_GHOST_BASE : ℕ := 200
def AI_PREDICTION_STEPS : ℕ := 5
def AI_PATTERN_MEMORY : ℕ := 20

/-- `AI_CONFIG.DANGER_RADIUS`. -/
def DANGER_RADIUS : ℚ := 3
/-- `AI_CONFIG.SAFE_DISTANCE`. -/
def SAFE_DISTANCE : ℚ := 5
/-- `AI_CONFIG.PATTERN_THRESHOLD` (the value `0.6`). -/
def PATTERN_THRESHOLD : ℚ := 3/5
/-- `AI_CONFIG.LEARNING_RATE` (the value `0.1`). -/
def LEARNING_RATE : ℚ := 1/10
/-- `AI_CONFIG.MAX_LEARNING_LEVEL`. -/
def MAX_LEARNING_LEVEL : ℚ := 100

/-! ### AIEngine grid helpers (`src/engine/AIEngine.ts`) -/

/-- `AIEngine.getNextPosition` restricted to integer grid positions. -/
def getNextPosition (p : GridPos) (d : Dir) : GridPos :=
  match d with
  | Dir.UP => ⟨p.x, p.y - 1⟩
  | Dir.DOWN => ⟨p.x, p.y + 1⟩
  | Dir.LEFT => ⟨p.x - 1, p.y⟩
  | Dir.RIGHT => ⟨p.x + 1, p.y⟩
  | Dir.NONE => p

/-- `AIEngine.manhattanDistance` on grid positions
(`Math.abs(x1-x2) + Math.abs(y1-y2)`). -/
def manhattanDist (a b : GridPos) : ℕ :=
  (a.x - b.x).natAbs + (a.y - b.y).natAbs

/-- `maze[0].length` (the width the AIEngine measures from the first row). -/
def mazeW (m : Maze) : ℕ := (m.headD []).length

/-- `maze[y][x]` for in-range integer indices.  Out-of-range JavaScript
indexing yields `undefined`, which compares unequal to `CellType.WALL`;
the `Cell.empty` default models that (it is only reachable on ragged rows,
which the rectangularity hypotheses of the theorems exclude). -/
def cellAt (m : Maze) (p : GridPos) : Cell :=
  (m.getD p.y.toNat []).getD p.x.toNat Cell.empty

/-- `AIEngine.isValidPosition`: in bounds (per `maze.length` and
`maze[0].length`) and not a wall. -/
def isValidPosition (p : GridPos) (m : Maze) : Bool :=
  if p.y < 0 ∨ (m.length : ℤ) ≤ p.y then false
  else if p.x < 0 ∨ (mazeW m : ℤ) ≤ p.x then false
  else cellAt m p ≠ Cell.wall

/-! ### Association-list model of the JavaScript `Map` keyed by
`"x,y"` strings (the key encoding is injective on integer pairs). -/

/-- `map.get(key)`. -/
def alGet {α : Type} (m : List (GridPos × α)) (k : GridPos) : Option α :=
  (m.find? (fun e => e.1 = k)).map (fun e => e.2)

/-- `map.set(key, v)`: later writes shadow earlier ones. -/
def alSet {α : Type} (m : List (GridPos × α)) (k : GridPos) (v : α) :
    List (GridPos × α) :=
  (k, v) :: m.filter (fun e => ¬ (e.1 = k))

/-- Membership of a key, `map.has(key)`. -/
def alHas {α : Type} (m : List (GridPos × α)) (k : GridPos) : Bool :=
  (alGet m k).isSome

/-- The JavaScript expression `v || Infinity` applied to a map lookup:
`none` models `Infinity`.  Note that the number `0` is falsy in
JavaScript, so a stored `0` is also turned into `Infinity`. -/
def jsOrInf (v : Option ℕ) : Option ℕ :=
  match v with
  | some n => if n = 0 then none else some n
  | none => none

/-- Comparison `a < b` where `none` plays `Infinity`. -/
def infLt : Option ℕ → Option ℕ → Bool
  | some a, some b => a < b
  | some _, none => true
  | none, _ => false

/-! ### A* search (`AIEngine.findPathAStar`) -/

/-- The search state of `findPathAStar`'s `while` loop. -/
structure AStarState where
  openSet : List GridPos
  cameFrom : List (GridPos × GridPos)
  gScore : List (GridPos × ℕ)
  fScore : List (GridPos × ℕ)
deriving Repr

/-- Scan for the index of the first frontier node whose fScore is strictly
lower than the running best, exactly as the `for` loop starting at index 1
does (`(fScore.get(nodeKey) || Infinity) < (fScore.get(currentKey) || Infinity)`). -/
def minIndexAux (fS : List (GridPos × ℕ)) :
    List GridPos → GridPos → ℕ → ℕ → ℕ
  | [], _, bestIdx, _ => bestIdx
  | p :: rest, best, bestIdx, i =>
    if infLt (jsOrInf (alGet fS p)) (jsOrInf (alGet fS best)) then
      minIndexAux fS rest p i (i + 1)
    else
      minIndexAux fS rest best bestIdx (i + 1)

/-- Index of the selected `current` node in the open set. -/
def minIndex (fS : List (GridPos × ℕ)) (l : List GridPos) : ℕ :=
  match l with
  | [] => 0
  | p :: rest => minIndexAux fS rest p 0 1

/-- One relaxation of a single neighbor direction, the body of the
`directions.forEach` inside the `while` loop. -/
def relaxDir (maze : Maze) (goal current : GridPos) (st : AStarState)
    (d : Dir) : AStarState :=
  let neighbor := getNextPosition current d
  if ¬ isValidPosition neighbor maze then st
  else
    let tentative := (alGet st.gScore current).getD 0 + 1
    if infLt (some tentative) (jsOrInf (alGet st.gScore neighbor)) then
      { openSet :=
          if st.openSet.any (fun p => p = neighbor) then st.openSet
          else st.openSet ++ [neighbor]
        cameFrom := alSet st.cameFrom neighbor current
        gScore := alSet st.gScore neighbor tentative
        fScore := alSet st.fScore neighbor
          (tentative + manhattanDist neighbor goal) }
    else st

/-- Path reconstruction (`while (cameFrom.has(currentKey))`), fuel-indexed:
`none` means the loop did not finish within the given fuel. -/
def reconstructPath (cf : List (GridPos × GridPos)) :
    ℕ → GridPos → List GridPos → Option (List GridPos)
  | 0, _, _ => none
  | fuel + 1, cur, acc =>
    match alGet cf cur with
    | none => some (cur :: acc)
    | some p => reconstructPath cf fuel p (cur :: acc)

/-- The `while (openSet.length > 0)` loop of `findPathAStar`, fuel-indexed.
`none` means the computation did not finish within the given fuel; the
source loop has no termination bound of its own. -/
def aStarLoop (maze : Maze) (goal : GridPos) :
    ℕ → AStarState → Option (List GridPos)
  | 0, _ => none
  | fuel + 1, st =>
    match st.openSet with
    | [] => some []
    | _ :: _ =>
      let idx := minIndex st.fScore st.openSet
      let current := st.openSet.getD idx ⟨0, 0⟩
      if current = goal then
        reconstructPath st.cameFrom (fuel + 1) current []
      else
        let st1 : AStarState :=
          { st with openSet := st.openSet.eraseIdx idx }
        aStarLoop maze goal fuel
          (List.foldl (relaxDir maze goal current) st1
            [Dir.UP, Dir.DOWN, Dir.LEFT, Dir.RIGHT])

/-- `AIEngine.findPathAStar` (fuel-indexed because the source's loops
carry no termination bound). -/
def findPathAStar (fuel : ℕ) (start goal : GridPos) (maze : Maze) :
    Option (List GridPos) :=
  aStarLoop maze goal fuel
    { openSet := [start]
      cameFrom := []
      gScore := alSet [] start 0
      fScore := alSet [] start (manhattanDist start goal) }

/-! ### Entities (`src/types/game.ts`) -/

/-- The `Ghost` interface.  The `color` field (a CSS string used only for
rendering) and the `pathPrediction` field (the cached visualization path,
written only by the prediction renderer) are omitted; no modelled
operation reads them. -/
structure Ghost where
  id : GId
  position : PosQ
  velocity : Vel
  direction : Dir
  state : GState
  targetPosition : PosQ
  scatterTarget : PosQ
  houseTimer : ℤ
  frightenedTimer : ℤ
  isFlashing : Bool
  lastDirection : Dir
deriving DecidableEq, Repr

/-- The `PacMan` interface. -/
structure PacMan where
  position : PosQ
  velocity : Vel
  direction : Dir
  nextDirection : Dir
  animationFrame : ℕ
  isDead : Bool
  mouthOpen : Bool
deriving DecidableEq, Repr

/-- `AIEngine.manhattanDistance` applied to raw number positions. -/
def manhattanQ (a b : PosQ) : ℚ := |a.x - b.x| + |a.y - b.y|

/-! ### Danger field (`AIEngine.calculateDangerLevel`,
`AIEngine.generateDangerHeatmap`) -/

/-- `AIEngine.calculateDangerLevel`: accumulate `(R - d) / R` over every
ghost that is neither FRIGHTENED nor EATEN and lies within Manhattan
distance `R = DANGER_RADIUS`, then clamp with `Math.min(total, 1)`. -/
def calculateDangerLevel (position : PosQ) (ghosts : List Ghost) : ℚ :=
  let total := ghosts.foldl (fun acc g =>
    if g.state = GState.FRIGHTENED ∨ g.state = GState.EATEN then acc
    else
      let distance := manhattanQ position g.position
      if distance ≤ DANGER_RADIUS then
        acc + (DANGER_RADIUS - distance) / DANGER_RADIUS
      else acc) 0
  min total 1

/-- The contribution of one ghost to the danger sum (the summand of the
specification formula; `0` for neutral or distant ghosts). -/
def dangerContribution (position : PosQ) (g : Ghost) : ℚ :=
  if g.state = GState.FRIGHTENED ∨ g.state = GState.EATEN then 0
  else if manhattanQ position g.position ≤ DANGER_RADIUS then
    (DANGER_RADIUS - manhattanQ position g.position) / DANGER_RADIUS
  else 0

/-- `AIEngine.generateDangerHeatmap`: a `maze.length × maze[0].length`
array, `-1` on wall cells, `calculateDangerLevel({x, y})` elsewhere. -/
def generateDangerHeatmap (ghosts : List Ghost) (maze : Maze) :
    List (List ℚ) :=
  (List.range maze.length).map (fun y =>
    (List.range (mazeW maze)).map (fun x =>
      if (maze.getD y []).getD x Cell.empty = Cell.wall then -1
      else calculateDangerLevel ⟨(x : ℚ), (y : ℚ)⟩ ghosts))

/-! ### Pattern learner (`AIEngine.recordPlayerMovement` and friends) -/

/-- The `patternWeights` object: one number per `Direction` key
(insertion order UP, DOWN, LEFT, RIGHT, NONE). -/
structure Weights where
  wUP : ℚ
  wDOWN : ℚ
  wLEFT : ℚ
  wRIGHT : ℚ
  wNONE : ℚ
deriving DecidableEq, Repr

/-- `Math.max(...Object.values(this.patternWeights))`.  On the total-zero
input the JavaScript weights are `0/0 = NaN` and the later comparison
`consistency > 0` is false; in this rational model the weights are `0`
(Lean's zero-division convention) and the comparison is likewise false,
so the two semantics agree on every observable decision. -/
def maxWeight (w : Weights) : ℚ :=
  max w.wUP (max w.wDOWN (max w.wLEFT (max w.wRIGHT w.wNONE)))

/-- The mutable fields of the `AIEngine` class. -/
structure AIState where
  playerPatterns : List Dir
  patternWeights : Weights
  learningLevel : ℚ
deriving DecidableEq, Repr

/-- The field initializers of the `AIEngine` class. -/
def initialAIState : AIState :=
  { playerPatterns := [], patternWeights := ⟨0, 0, 0, 0, 0⟩,
    learningLevel := 0 }

/-- `AIEngine.updatePatternWeights`: reset, count, divide by the total. -/
def updatePatternWeights (patterns : List Dir) : Weights :=
  let total : ℚ := patterns.length
  { wUP := ((patterns.filter (fun d => d = Dir.UP)).length : ℚ) / total
    wDOWN := ((patterns.filter (fun d => d = Dir.DOWN)).length : ℚ) / total
    wLEFT := ((patterns.filter (fun d => d = Dir.LEFT)).length : ℚ) / total
    wRIGHT := ((patterns.filter (fun d => d = Dir.RIGHT)).length : ℚ) / total
    wNONE := ((patterns.filter (fun d => d = Dir.NONE)).length : ℚ) / total }

/-- `AIEngine.updateLearningLevel`. -/
def updateLearningLevel (w : Weights) (lvl : ℚ) : ℚ :=
  let consistency := maxWeight w - 1/4
  if consistency > 0 then
    min (lvl + consistency * LEARNING_RATE) MAX_LEARNING_LEVEL
  else lvl

/-- `AIEngine.recordPlayerMovement`: push, evict while the length exceeds
`AI_CONFIG.PATTERN_THRESHOLD` (the number `0.6` — not the pattern-memory
bound `GAME_CONFIG.AI_PATTERN_MEMORY = 20`), then recompute the weights
and the learning level. -/
def recordPlayerMovement (s : AIState) (d : Dir) : AIState :=
  let ps0 := s.playerPatterns ++ [d]
  let ps := if (ps0.length : ℚ) > PATTERN_THRESHOLD then ps0.tail else ps0
  let w := updatePatternWeights ps
  { playerPatterns := ps
    patternWeights := w
    learningLevel := updateLearningLevel w s.learningLevel }

/-- A sequence of recorded movements. -/
def recordMoves (s : AIState) (l : List Dir) : AIState :=
  l.foldl recordPlayerMovement s

/-- `k` rounds of a perfectly uniform round-robin over the 4 directions. -/
def roundRobin : ℕ → List Dir
  | 0 => []
  | k + 1 => roundRobin k ++ [Dir.UP, Dir.DOWN, Dir.LEFT, Dir.RIGHT]

/-! ### GameEngine helpers (`src/engine/GameEngine.ts`) -/

/-- `GameEngine.isValidMove`: bounds from `GAME_CONFIG.MAZE_WIDTH` /
`MAZE_HEIGHT`, cell from the live maze. -/
def isValidMove (maze : Maze) (p : GridPos) : Bool :=
  if p.y < 0 ∨ (MAZE_HEIGHT : ℤ) ≤ p.y then false
  else if p.x < 0 ∨ (MAZE_WIDTH : ℤ) ≤ p.x then false
  else cellAt maze p ≠ Cell.wall

/-- `GameEngine.getOppositeDirection`. -/
def getOppositeDirection : Dir → Dir
  | Dir.UP => Dir.DOWN
  | Dir.DOWN => Dir.UP
  | Dir.LEFT => Dir.RIGHT
  | Dir.RIGHT => Dir.LEFT
  | Dir.NONE => Dir.NONE

/-- `GameEngine.getPossibleDirections`: the walkable neighbors, collected
in the fixed order UP, DOWN, LEFT, RIGHT. -/
def getPossibleDirections (maze : Maze) (p : GridPos) : List Dir :=
  [Dir.UP, Dir.DOWN, Dir.LEFT, Dir.RIGHT].filter
    (fun d => isValidMove maze (getNextPosition p d))

/-- Grid cell of a world position:
`Math.round(position / GAME_CONFIG.CELL_SIZE)` on each coordinate. -/
def toGrid (p : PosQ) : GridPos :=
  ⟨jsRound (p.x / CELL_SIZE), jsRound (p.y / CELL_SIZE)⟩

/-- The speed chosen by `GameEngine.setGhostVelocity`. -/
def ghostSpeed (diffMult : ℚ) (s : GState) : ℚ :=
  if s = GState.FRIGHTENED then FRIGHTENED_SPEED * diffMult
  else if s = GState.EATEN then GHOST_SPEED * (3/2) * diffMult
  else GHOST_SPEED * diffMult

/-- Velocity vector for a direction at a given speed (the `switch` shared
by `setVelocity` and `setGhostVelocity`). -/
def dirVel (speed : ℚ) : Dir → Vel
  | Dir.UP => ⟨0, -speed⟩
  | Dir.DOWN => ⟨0, speed⟩
  | Dir.LEFT => ⟨-speed, 0⟩
  | Dir.RIGHT => ⟨speed, 0⟩
  | Dir.NONE => ⟨0, 0⟩

/-- `GameEngine.setGhostVelocity`. -/
def setGhostVelocity (diffMult : ℚ) (g : Ghost) : Ghost :=
  { g with velocity := dirVel (ghostSpeed diffMult g.state) g.direction }

/-- The horizontal tunnel wraparound inlined identically in
`updatePacMan` and `updateGhostMovement`:
`if (nextX < 0) nextX = (WIDTH-1)*CELL; else if (nextX >= WIDTH*CELL) nextX = 0`. -/
def wrapNextX (nextX : ℚ) : ℚ :=
  if nextX < 0 then ((MAZE_WIDTH : ℚ) - 1) * CELL_SIZE
  else if (MAZE_WIDTH : ℚ) * CELL_SIZE ≤ nextX then 0
  else nextX

/-- The candidate direction list of `updateGhostMovement`: walkable
neighbors, minus the direction whose opposite equals the stored
`lastDirection` (the filter is skipped in FRIGHTENED). -/
def ghostPossibleDirs (maze : Maze) (g : Ghost) : List Dir :=
  (getPossibleDirections maze (toGrid g.position)).filter (fun d =>
    if g.state = GState.FRIGHTENED then true
    else getOppositeDirection d ≠ g.lastDirection)

/-- One step of the `bestDirection`/`shortestDistance` greedy loop;
`none` models the initial `Infinity`, so the first strict minimizer in
list order wins. -/
def chooseStep (gridPos target : GridPos) (acc : Dir × Option ℕ)
    (d : Dir) : Dir × Option ℕ :=
  let dist := manhattanDist (getNextPosition gridPos d) target
  match acc.2 with
  | none => (d, some dist)
  | some s => if dist < s then (d, some dist) else acc

/-- The greedy direction choice toward the target
(`bestDirection = possibleDirections[0]`, then the strict-improvement
scan). -/
def chooseBestDir (gridPos target : GridPos) (l : List Dir) : Dir :=
  (l.foldl (chooseStep gridPos target) (l.headD Dir.NONE, none)).1

/-- The direction `updateGhostMovement` selects: a random index in
FRIGHTENED (`Math.floor(Math.random()*len)` abstracted as `rand` reduced
modulo the number of options), the greedy choice otherwise. -/
def ghostChooseDir (maze : Maze) (rand : ℕ) (g : Ghost) : Dir :=
  let possible := ghostPossibleDirs maze g
  if g.state = GState.FRIGHTENED then
    possible.getD (rand % possible.length) Dir.NONE
  else
    chooseBestDir (toGrid g.position) (toGrid g.targetPosition) possible

/-- `GameEngine.updateGhostMovement`. -/
def updateGhostMovement (maze : Maze) (frameCount : ℕ) (diffMult : ℚ)
    (rand : ℕ) (g : Ghost) : Ghost :=
  if g.state = GState.IN_HOUSE then
    let g1 : Ghost :=
      { g with direction :=
          if frameCount % 60 < 30 then Dir.UP else Dir.DOWN }
    let g2 := setGhostVelocity diffMult g1
    { g2 with position := ⟨g2.position.x, g2.position.y + g2.velocity.dy⟩ }
  else
    let possible := ghostPossibleDirs maze g
    if possible = [] then g
    else
      let best := ghostChooseDir maze rand g
      let g1 : Ghost := { g with
        lastDirection := g.direction
        direction := best }
      let g2 := setGhostVelocity diffMult g1
      let nextX0 := g2.position.x + g2.velocity.dx
      let nextY := g2.position.y + g2.velocity.dy
      let nextX := wrapNextX nextX0
      if isValidMove maze (toGrid ⟨nextX, nextY⟩) then
        { g2 with position := ⟨nextX, nextY⟩ }
      else g2

/-- `GameEngine.setVelocity` for Pac-Man. -/
def setVelocity (p : PacMan) (d : Dir) : PacMan :=
  { p with velocity := dirVel PACMAN_SPEED d }

/-- The direction-change phase of `updatePacMan` (everything before the
movement block).  The side effect
`this.aiEngine.recordPlayerMovement(inputDirection)` mutates the AI
engine, modelled separately by `recordPlayerMovement`. -/
def pacTurn (maze : Maze) (inputDirection : Dir) (p : PacMan) : PacMan :=
  let p1 := if inputDirection ≠ Dir.NONE then
    { p with nextDirection := inputDirection } else p
  if p1.nextDirection ≠ p1.direction ∧ p1.nextDirection ≠ Dir.NONE then
    let nextGridPos := getNextPosition (toGrid p1.position) p1.nextDirection
    if isValidMove maze nextGridPos then
      setVelocity { p1 with direction := p1.nextDirection } p1.nextDirection
    else p1
  else p1

/-- The movement phase of `updatePacMan`: compute the next position,
wrap the x coordinate, then check validity of the wrapped cell;
stop against a wall. -/
def pacMove (maze : Maze) (p : PacMan) : PacMan :=
  if p.direction ≠ Dir.NONE then
    let nextX0 := p.position.x + p.velocity.dx
    let nextY := p.position.y + p.velocity.dy
    let nextX := wrapNextX nextX0
    if isValidMove maze (toGrid ⟨nextX, nextY⟩) then
      { p with position := ⟨nextX, nextY⟩ }
    else
      { p with direction := Dir.NONE, velocity := ⟨0, 0⟩ }
  else p

/-- The animation phase of `updatePacMan`. -/
def pacAnim (frameCount : ℕ) (p : PacMan) : PacMan :=
  if frameCount % 8 = 0 then
    { p with
      mouthOpen := !p.mouthOpen
      animationFrame := (p.animationFrame + 1) % 4 }
  else p

/-- `GameEngine.updatePacMan` as a transformation of the Pac-Man entity. -/
def updatePacMan (maze : Maze) (frameCount : ℕ) (inputDirection : Dir)
    (p : PacMan) : PacMan :=
  pacAnim frameCount (pacMove maze (pacTurn maze inputDirection p))

/-! ### Ghost targeting (`AIEngine.getGhostTarget`,
`AIEngine.adaptGhostBehavior`) and state (`GameEngine.updateGhostState`) -/

/-- `AIEngine.getPositionAhead` (the AIEngine copy, which does not clamp
to the maze bounds). -/
def getPositionAhead (p : PosQ) (d : Dir) (dist : ℚ) : PosQ :=
  match d with
  | Dir.UP => ⟨p.x, p.y - dist⟩
  | Dir.DOWN => ⟨p.x, p.y + dist⟩
  | Dir.LEFT => ⟨p.x - dist, p.y⟩
  | Dir.RIGHT => ⟨p.x + dist, p.y⟩
  | Dir.NONE => p

/-- `AIEngine.getGhostTarget`: the role-specific pursuit target.  It
switches on `ghost.id` only; the ghost's state is not consulted. -/
def getGhostTarget (ghost : Ghost) (pacman : PacMan)
    (ghosts : List Ghost) : PosQ :=
  match ghost.id with
  | GId.BLINKY => pacman.position
  | GId.PINKY => getPositionAhead pacman.position pacman.direction 4
  | GId.INKY =>
    match ghosts.find? (fun g => g.id = GId.BLINKY) with
    | some blinky =>
      let ahead := getPositionAhead pacman.position pacman.direction 2
      ⟨ahead.x + (ahead.x - blinky.position.x),
        ahead.y + (ahead.y - blinky.position.y)⟩
    | none => pacman.position
  | GId.CLYDE =>
    if 8 < manhattanQ ghost.position pacman.position then pacman.position
    else ghost.scatterTarget

/-- `AIEngine.predictPlayerDirection`: first strict maximum over the
entries in insertion order, starting from weight `0` and `NONE`. -/
def predictPlayerDirection (w : Weights) : Dir :=
  ([(Dir.UP, w.wUP), (Dir.DOWN, w.wDOWN), (Dir.LEFT, w.wLEFT),
    (Dir.RIGHT, w.wRIGHT), (Dir.NONE, w.wNONE)].foldl
    (fun acc e => if e.2 > acc.2 then e else acc) (Dir.NONE, 0)).1

/-- `AIEngine.getNextPosition` applied to raw number positions (as
`adaptGhostBehavior` does with pixel positions). -/
def getNextPositionQ (p : PosQ) (d : Dir) : PosQ :=
  match d with
  | Dir.UP => ⟨p.x, p.y - 1⟩
  | Dir.DOWN => ⟨p.x, p.y + 1⟩
  | Dir.LEFT => ⟨p.x - 1, p.y⟩
  | Dir.RIGHT => ⟨p.x + 1, p.y⟩
  | Dir.NONE => p

/-- `AIEngine.calculateInterceptPoint`.  `Math.sqrt` is not a rational
operation; it is abstracted by the `sqrtFn` parameter (every theorem
below quantifies over it or avoids this branch). -/
def calculateInterceptPoint (sqrtFn : ℚ → ℚ) (ghostPos targetPos : PosQ)
    (targetVelocity : Vel) : PosQ :=
  let dx := targetPos.x - ghostPos.x
  let dy := targetPos.y - ghostPos.y
  let distance := sqrtFn (dx * dx + dy * dy)
  let timeToReach := distance / GHOST_SPEED
  ⟨(jsRound (targetPos.x + targetVelocity.dx * timeToReach) : ℚ),
    (jsRound (targetPos.y + targetVelocity.dy * timeToReach) : ℚ)⟩

/-- `AIEngine.adaptGhostBehavior`. -/
def adaptGhostBehavior (sqrtFn : ℚ → ℚ) (ai : AIState) (ghost : Ghost)
    (pacman : PacMan) (ghosts : List Ghost) : PosQ :=
  let baseTarget := getGhostTarget ghost pacman ghosts
  if ai.learningLevel < 20 then baseTarget
  else
    let predictedDirection := predictPlayerDirection ai.patternWeights
    let predictedPosition := getNextPositionQ pacman.position predictedDirection
    let interceptTarget := calculateInterceptPoint sqrtFn ghost.position
      predictedPosition pacman.velocity
    let learningWeight := min (ai.learningLevel / 100) (7/10)
    ⟨(jsRound (baseTarget.x * (1 - learningWeight) +
        interceptTarget.x * learningWeight) : ℚ),
      (jsRound (baseTarget.y * (1 - learningWeight) +
        interceptTarget.y * learningWeight) : ℚ)⟩

/-- `GHOST_CONFIG` start positions (grid coordinates). -/
def ghostStartPosition : GId → GridPos
  | GId.BLINKY => ⟨9, 9⟩
  | GId.PINKY => ⟨9, 10⟩
  | GId.INKY => ⟨8, 10⟩
  | GId.CLYDE => ⟨10, 10⟩

/-- `GHOST_CONFIG` scatter targets (grid coordinates). -/
def ghostScatterTarget : GId → GridPos
  | GId.BLINKY => ⟨17, 0⟩
  | GId.PINKY => ⟨2, 0⟩
  | GId.INKY => ⟨17, 20⟩
  | GId.CLYDE => ⟨0, 20⟩

/-- `GameEngine.updateGhostState`. -/
def updateGhostState (sqrtFn : ℚ → ℚ) (ai : AIState) (frameCount : ℕ)
    (pacman : PacMan) (ghosts : List Ghost) (ghost : Ghost) : Ghost :=
  if ghost.state = GState.IN_HOUSE ∧ 0 < ghost.houseTimer then
    let t := ghost.houseTimer - 1
    if t ≤ 0 then { ghost with houseTimer := t, state := GState.CHASE }
    else { ghost with houseTimer := t }
  else if ghost.state = GState.FRIGHTENED then
    let t := ghost.frightenedTimer - 1
    let fl := if t ≤ GHOST_FLASH_DURATION then
      decide ((Int.fdiv t 10) % 2 = 0) else ghost.isFlashing
    if t ≤ 0 then
      { ghost with
        frightenedTimer := t
        state := GState.CHASE
        isFlashing := false }
    else { ghost with frightenedTimer := t, isFlashing := fl }
  else if ghost.state = GState.EATEN then
    let housePos := ghostStartPosition ghost.id
    let g1 := if ghost.position.x = (housePos.x : ℚ) ∧
        ghost.position.y = (housePos.y : ℚ) then
      { ghost with state := GState.CHASE } else ghost
    { g1 with targetPosition := ⟨(housePos.x : ℚ), (housePos.y : ℚ)⟩ }
  else
    let g1 := { ghost with
      targetPosition := adaptGhostBehavior sqrtFn ai ghost pacman ghosts }
    { g1 with state :=
        if (frameCount / 600) % 2 = 0 then GState.CHASE
        else GState.SCATTER }

/-! ### Game state (`GameEngine`) -/

/-- `gameStatus` values. -/
inductive Status where
  | READY
  | PLAYING
  | PAUSED
  | GAME_OVER
  | LEVEL_COMPLETE
deriving DecidableEq, Repr

/-- The `GameState` interface (the fields the modelled operations read or
write). -/
structure GameStateM where
  pacman : PacMan
  ghosts : List Ghost
  maze : Maze
  score : ℕ
  highScore : ℕ
  lives : ℤ
  level : ℕ
  pelletsRemaining : ℤ
  powerPelletActive : Bool
  powerPelletTimer : ℤ
  gameStatus : Status
  ghostEatenCount : ℕ
  fruitSpawned : Bool
  fruitPosition : Option GridPos
  fruitScore : ℕ
  aiLearningLevel : ℚ
  showAIFeatures : Bool
  dangerMap : List (List ℚ)
  playerPatterns : List Dir
  screenShake : Bool
  vhsGlitch : Bool
deriving Repr

/-- Grid-to-world scaling (`pos * GAME_CONFIG.CELL_SIZE`). -/
def gridToWorld (p : GridPos) : PosQ :=
  ⟨(p.x : ℚ) * CELL_SIZE, (p.y : ℚ) * CELL_SIZE⟩

/-- `GameEngine.createPacMan`. -/
def createPacMan : PacMan :=
  { position := gridToWorld ⟨9, 15⟩
    velocity := ⟨0, 0⟩
    direction := Dir.NONE
    nextDirection := Dir.NONE
    animationFrame := 0
    isDead := false
    mouthOpen := true }

/-- One ghost of `GameEngine.createGhosts` (`houseTimer` is
`type === BLINKY ? 0 : 60 + index*30`). -/
def createGhost (id : GId) (houseTimer : ℤ) : Ghost :=
  { id := id
    position := gridToWorld (ghostStartPosition id)
    velocity := ⟨0, 0⟩
    direction := Dir.UP
    state := if id = GId.BLINKY then GState.CHASE else GState.IN_HOUSE
    targetPosition := gridToWorld (ghostScatterTarget id)
    scatterTarget := gridToWorld (ghostScatterTarget id)
    houseTimer := houseTimer
    frightenedTimer := 0
    isFlashing := false
    lastDirection := Dir.UP }

/-- `GameEngine.createGhosts` (`Object.entries` order). -/
def createGhosts : List Ghost :=
  [createGhost GId.BLINKY 0, createGhost GId.PINKY 90,
    createGhost GId.INKY 120, createGhost GId.CLYDE 150]

/-- The numeric `CellType` enum values used by the `MAZE_LAYOUT` literal. -/
def cellOfNat : ℕ → Cell
  | 0 => Cell.empty
  | 1 => Cell.wall
  | 2 => Cell.pellet
  | 3 => Cell.powerPellet
  | 4 => Cell.ghostHouse
  | 5 => Cell.tunnel
  | _ => Cell.fruit

/-- `MAZE_LAYOUT` from `src/config/gameConfig.ts`. -/
def MAZE_LAYOUT : Maze :=
  ([[1,1,1,1,1,1,1,1,1,1,1,1,1,1,1,1,1,1,1],
    [1,2,2,2,2,2,2,2,2,1,2,2,2,2,2,2,2,2,1],
    [1,3,1,1,1,2,1,1,1,1,1,1,1,2,1,1,1,3,1],
    [1,2,2,2,2,2,2,2,2,2,2,2,2,2,2,2,2,2,1],
    [1,2,1,1,1,2,1,2,1,1,1,2,1,2,1,1,1,2,1],
    [1,2,2,2,2,2,1,2,2,1,2,2,1,2,2,2,2,2,1],
    [1,1,1,1,1,2,1,1,0,1,0,1,1,2,1,1,1,1,1],
    [0,0,0,0,1,2,1,0,0,0,0,0,1,2,1,0,0,0,0],
    [1,1,1,1,1,2,1,0,4,4,4,0,1,2,1,1,1,1,1],
    [5,0,0,0,0,2,0,0,4,4,4,0,0,2,0,0,0,0,5],
    [1,1,1,1,1,2,1,0,4,4,4,0,1,2,1,1,1,1,1],
    [0,0,0,0,1,2,1,0,0,0,0,0,1,2,1,0,0,0,0],
    [1,1,1,1,1,2,1,1,0,1,0,1,1,2,1,1,1,1,1],
    [1,2,2,2,2,2,2,2,2,1,2,2,2,2,2,2,2,2,1],
    [1,2,1,1,1,2,1,1,1,1,1,1,1,2,1,1,1,2,1],
    [1,3,2,2,1,2,2,2,2,2,2,2,2,2,1,2,2,3,1],
    [1,1,1,2,1,2,1,2,1,1,1,2,1,2,1,2,1,1,1],
    [1,2,2,2,2,2,1,2,2,1,2,2,1,2,2,2,2,2,1],
    [1,2,1,1,1,1,1,1,2,1,2,1,1,1,1,1,1,2,1],
    [1,2,2,2,2,2,2,2,2,2,2,2,2,2,2,2,2,2,1],
    [1,1,1,1,1,1,1,1,1,1,1,1,1,1,1,1,1,1,1]].map
    (fun row => row.map cellOfNat))

/-- `GameEngine.countPellets`. -/
def countPellets (m : Maze) : ℕ :=
  (m.map (fun row => (row.filter
    (fun c => c = Cell.pellet ∨ c = Cell.powerPellet)).length)).sum

/-- `GameEngine.initializeGameState`.  The `localStorage` read of the
stored high score is the `storedHighScore` parameter. -/
def initGameState (storedHighScore : ℕ) : GameStateM :=
  { pacman := createPacMan
    ghosts := createGhosts
    maze := MAZE_LAYOUT
    score := 0
    highScore := storedHighScore
    lives := 3
    level := 1
    pelletsRemaining := countPellets MAZE_LAYOUT
    powerPelletActive := false
    powerPelletTimer := 0
    gameStatus := Status.READY
    ghostEatenCount := 0
    fruitSpawned := false
    fruitPosition := none
    fruitScore := 0
    aiLearningLevel := 0
    showAIFeatures := true
    dangerMap := []
    playerPatterns := []
    screenShake := false
    vhsGlitch := false }

/-- The `GameEngine` instance: the `aiEngine` object, the game state,
the frame counter and the difficulty multiplier. -/
structure EngineState where
  aiState : AIState
  gameState : GameStateM
  frameCount : ℕ
  difficultyMultiplier : ℚ

/-- `GameEngine.restartGame`: the game state is replaced with a freshly
initialized one; the `aiEngine` object and the frame counter are not
touched. -/
def restartGame (storedHighScore : ℕ) (e : EngineState) : EngineState :=
  { e with gameState := initGameState storedHighScore }

/-- The per-ghost body of the `forEach` in
`GameEngine.activatePowerPellet`. -/
def frightenGhost (g : Ghost) : Ghost :=
  if g.state ≠ GState.EATEN ∧ g.state ≠ GState.IN_HOUSE then
    { g with
      state := GState.FRIGHTENED
      frightenedTimer := POWER_PELLET_DURATION
      isFlashing := false
      direction := getOppositeDirection g.direction }
  else g

/-- `GameEngine.activatePowerPellet`. -/
def activatePowerPellet (s : GameStateM) : GameStateM :=
  { s with
    powerPelletActive := true
    powerPelletTimer := POWER_PELLET_DURATION
    ghostEatenCount := 0
    ghosts := s.ghosts.map frightenGhost }

/-- The per-ghost body of the ghost-collision `forEach` in
`GameEngine.checkCollisions`.  The `setTimeout`-deferred
`resetPositions` call after a non-fatal death is an external timer, not
an immediate state change; sounds are external too. -/
def collideGhost (pacGrid : GridPos) (s : GameStateM) (g : Ghost) :
    GameStateM × Ghost :=
  let gg := toGrid g.position
  let distance := (pacGrid.x - gg.x).natAbs + (pacGrid.y - gg.y).natAbs
  if distance < 1 then
    if g.state = GState.FRIGHTENED then
      let points := POINTS_GHOST_BASE * 2 ^ s.ghostEatenCount
      ({ s with
         score := s.score + points
         ghostEatenCount := s.ghostEatenCount + 1
         screenShake := true },
       { g with state := GState.EATEN })
    else if g.state ≠ GState.EATEN then
      let s1 := { s with
        pacman := { s.pacman with isDead := true }
        lives := s.lives - 1
        screenShake := true }
      (if s1.lives ≤ 0 then { s1 with gameStatus := Status.GAME_OVER }
       else s1, g)
    else (s, g)
  else (s, g)

/-- The ghost-collision loop of `GameEngine.checkCollisions`
(`src/types/game.ts` lines 541-572). -/
def checkGhostCollisions (s : GameStateM) : GameStateM :=
  let pacGrid := toGrid s.pacman.position
  let r := s.ghosts.foldl (fun (acc : GameStateM × List Ghost) g =>
    let p := collideGhost pacGrid acc.1 g
    (p.1, acc.2 ++ [p.2])) (s, [])
  { r.1 with ghosts := r.2 }

/-- Two grid cells are 4-adjacent when their Manhattan distance is 1. -/
def Adj (a b : GridPos) : Prop := manhattanDist a b = 1

/-- Invariant of the `cameFrom`/`gScore` maps of the A* loop:
every `cameFrom` entry points from a valid neighbor cell back to a cell
with a `gScore`, and the only cell that can carry a `gScore` without a
`cameFrom` entry is the start. -/
def CFInv (maze : Maze) (start : GridPos) (cf : List (GridPos × GridPos))
    (g : List (GridPos × ℕ)) : Prop :=
  (∀ n p, alGet cf n = some p →
    (∃ d, d ≠ Dir.NONE ∧ n = getNextPosition p d) ∧
      isValidPosition n maze = true) ∧
  (∀ n p, alGet cf n = some p → (alGet g p).isSome) ∧
  (∀ n, (alGet g n).isSome → alGet cf n = none → n = start)

/-- Full loop invariant: the map invariant plus every open-set member
having a `gScore`. -/
def StInv (maze : Maze) (start : GridPos) (st : AStarState) : Prop :=
  CFInv maze start st.cameFrom st.gScore ∧
    ∀ p ∈ st.openSet, (alGet st.gScore p).isSome

/-! ### Concrete fixtures for counterexamples and witnesses -/

/-- A ghost parked in the dead-end pocket at grid `(0,7)` of the real
maze (pixel position `(0, 168)`), having just moved LEFT into it: the
only walkable neighbor is RIGHT, which the no-reversal filter removes. -/
def deadEndGhost : Ghost :=
  { createGhost GId.BLINKY 0 with
    position := gridToWorld ⟨0, 7⟩
    state := GState.CHASE
    direction := Dir.LEFT
    lastDirection := Dir.LEFT }

/-- A ghost in the open corridor cell `(2,3)` of the real maze chasing a
target at grid `(1,3)`. -/
def corridorGhost : Ghost :=
  { createGhost GId.BLINKY 0 with
    position := gridToWorld ⟨2, 3⟩
    state := GState.CHASE
    direction := Dir.UP
    lastDirection := Dir.UP
    targetPosition := gridToWorld ⟨1, 3⟩ }

/-- `corridorGhost` after one movement tick (it moves LEFT). -/
def corridorGhostTick1 : Ghost :=
  updateGhostMovement MAZE_LAYOUT 0 1 0 corridorGhost

/-- The tick-1 ghost with its target moved to grid `(4,3)` (the player
moved to the other side), fed into the next movement tick. -/
def corridorGhostTick2Input : Ghost :=
  { corridorGhostTick1 with targetPosition := gridToWorld ⟨4, 3⟩ }

/-- Blinky in SCATTER mode. -/
def scatterBlinky : Ghost :=
  { createGhost GId.BLINKY 0 with state := GState.SCATTER }

/-- Pac-Man moved to a given world position. -/
def pacAt (pos : PosQ) : PacMan := { createPacMan with position := pos }

/-- A non-neutral ghost standing exactly on world position `(1, 0)`. -/
def dangerGhostW : Ghost :=
  { createGhost GId.BLINKY 0 with
    position := ⟨1, 0⟩
    state := GState.CHASE }

/-- A FRIGHTENED ghost standing on Pac-Man's start cell `(9,15)`. -/
def frightGhostAtPac : Ghost :=
  { createGhost GId.BLINKY 0 with
    position := gridToWorld ⟨9, 15⟩
    state := GState.FRIGHTENED }

/-- A fresh game state whose four ghosts are all FRIGHTENED and standing
on Pac-Man's cell: four consecutive captures happen in one collision
pass. -/
def capture4State : GameStateM :=
  { initGameState 0 with ghosts :=
      [frightGhostAtPac, frightGhostAtPac, frightGhostAtPac,
        frightGhostAtPac] }

/-- Pac-Man at the left tunnel mouth moving LEFT. -/
def tunnelPac : PacMan :=
  { createPacMan with
    position := gridToWorld ⟨0, 9⟩
    direction := Dir.LEFT
    velocity := ⟨-2, 0⟩ }

/-- A 1×3 corridor of empty cells: the cells `(0,0)`, `(1,0)`, `(2,0)` are
all walkable and connected in a line. -/
def corridor3 : Maze := [[Cell.empty, Cell.empty, Cell.empty]]

/-- A 1×2 corridor of empty cells. -/
def corridor2 : Maze := [[Cell.empty, Cell.empty]]

/-- The `cameFrom` map `findPathAStar` has built on `corridor3` at the
moment the goal `(2,0)` is popped: because `gScore.get("0,0")` is `0`,
which is falsy, the guard `tentativeGScore < (gScore.get(...) || Infinity)`
re-relaxes the start, and the map contains the cycle
`(1,0) ↦ (0,0) ↦ (1,0)`. -/
def corridorCameFrom : List (GridPos × GridPos) :=
  [(⟨2, 0⟩, ⟨1, 0⟩), (⟨0, 0⟩, ⟨1, 0⟩), (⟨1, 0⟩, ⟨0, 0⟩)]


/-! ### Movement theorems -/

/-- `Math.round` of an integer is itself. -/
theorem jsRound_intCast (n : ℤ) : jsRound (n : ℚ) = n := by
  unfold jsRound
  rw [Int.floor_int_add]
  norm_num

/-- Rounding a cell-aligned world position back to the grid recovers the
cell. -/
theorem toGrid_gridToWorld (p : GridPos) : toGrid (gridToWorld p) = p := by
  unfold toGrid gridToWorld CELL_SIZE
  have hx : ((p.x : ℚ) * 24) / 24 = (p.x : ℚ) := by norm_num
  have hy : ((p.y : ℚ) * 24) / 24 = (p.y : ℚ) := by norm_num
  dsimp only
  rw [hx, hy, jsRound_intCast, jsRound_intCast]

/-- Outside the ghost house, with at least one candidate direction, one
movement tick chooses a direction, recomputes the velocity, wraps the
next x, and moves exactly when the wrapped grid cell is walkable. -/
theorem updateGhostMovement_step (maze : Maze) (fc : ℕ) (mult : ℚ)
    (rand : ℕ) (g : Ghost) (h1 : ¬ (g.state = GState.IN_HOUSE))
    (h2 : ¬ (ghostPossibleDirs maze g = [])) :
    updateGhostMovement maze fc mult rand g =
      (let g2 := setGhostVelocity mult { g with
          lastDirection := g.direction
          direction := ghostChooseDir maze rand g };
        if isValidMove maze
            (toGrid ⟨wrapNextX (g2.position.x + g2.velocity.dx),
              g2.position.y + g2.velocity.dy⟩) then
          { g2 with position :=
              ⟨wrapNextX (g2.position.x + g2.velocity.dx),
                g2.position.y + g2.velocity.dy⟩ }
        else g2) := by
  unfold updateGhostMovement
  rw [if_neg h1]
  dsimp only
  rw [if_neg h2]

/-- With a moving direction, the movement phase of `updatePacMan` wraps
the next x, then moves exactly when the wrapped grid cell is walkable,
else stops. -/
theorem pacMove_step (maze : Maze) (p : PacMan)
    (h : p.direction ≠ Dir.NONE) :
    pacMove maze p =
      (if isValidMove maze
          (toGrid ⟨wrapNextX (p.position.x + p.velocity.dx),
            p.position.y + p.velocity.dy⟩) then
        { p with position := ⟨wrapNextX (p.position.x + p.velocity.dx),
            p.position.y + p.velocity.dy⟩ }
      else { p with direction := Dir.NONE, velocity := ⟨0, 0⟩ }) := by
  unfold pacMove
  rw [if_pos h]

/-- In the dead-end pocket `(0,7)` the only walkable neighbor is RIGHT,
and the no-reversal filter empties the candidate list of a ghost that
entered moving LEFT. -/
theorem deadEnd_possible : ghostPossibleDirs MAZE_LAYOUT deadEndGhost = [] := by
  unfold ghostPossibleDirs
  rw [show toGrid deadEndGhost.position = ⟨0, 7⟩ from toGrid_gridToWorld ⟨0, 7⟩]
  decide

/-- In the corridor cell `(2,3)` the candidates of `corridorGhost` are
LEFT and RIGHT. -/
theorem corridor_possible :
    ghostPossibleDirs MAZE_LAYOUT corridorGhost = [Dir.LEFT, Dir.RIGHT] := by
  unfold ghostPossibleDirs
  rw [show toGrid corridorGhost.position = ⟨2, 3⟩ from toGrid_gridToWorld ⟨2, 3⟩]
  decide

/-- The greedy scan only ever returns the accumulator or a scanned
element. -/
theorem chooseStep_fold_mem (gp t : GridPos) (S : List Dir) :
    ∀ (l : List Dir) (acc : Dir × Option ℕ), acc.1 ∈ S →
      (∀ x ∈ l, x ∈ S) → (l.foldl (chooseStep gp t) acc).1 ∈ S := by
  intro l
  induction l with
  | nil => intro acc h _; exact h
  | cons d l ih =>
    intro acc hacc hl
    rw [List.foldl_cons]
    apply ih
    · unfold chooseStep
      dsimp only
      cases hc : acc.2 with
      | none => exact hl d (List.mem_cons_self d l)
      | some v =>
        dsimp only
        by_cases hlt : manhattanDist (getNextPosition gp d) t < v
        · rw [if_pos hlt]
          exact hl d (List.mem_cons_self d l)
        · rw [if_neg hlt]
          exact hacc
    · intro x hx
      exact hl x (List.mem_cons_of_mem d hx)

/-- The greedy direction choice is one of the candidates. -/
theorem chooseBestDir_mem (gp t : GridPos) (l : List Dir) (hl : l ≠ []) :
    chooseBestDir gp t l ∈ l := by
  unfold chooseBestDir
  apply chooseStep_fold_mem gp t l l
  · cases l with
    | nil => exact absurd rfl hl
    | cons a t2 => exact List.mem_cons_self a t2
  · intro x hx
    exact hx

/-- Outside the house with candidates available, the tick's chosen
direction is `ghostChooseDir`. -/
theorem updateGhostMovement_direction (maze : Maze) (fc : ℕ) (mult : ℚ)
    (rand : ℕ) (g : Ghost) (h1 : ¬ (g.state = GState.IN_HOUSE))
    (h2 : ¬ (ghostPossibleDirs maze g = [])) :
    (updateGhostMovement maze fc mult rand g).direction =
      ghostChooseDir maze rand g := by
  rw [updateGhostMovement_step maze fc mult rand g h1 h2]
  dsimp only
  split <;> rfl

/-- C2 (amended): on a CHASE/SCATTER tick, either the filtered candidate
list is empty and the ghost does not move at all (the ghost is returned
unchanged: the constraint is never relaxed, so a dead end freezes the
adversary), or the chosen direction's opposite differs from the stored
`lastDirection` field (which, by the assignment order in the source,
holds the direction the ghost followed on the tick before the previous
one, not necessarily the immediately prior moved direction). -/
theorem updateGhostMovement_no_reversal (maze : Maze) (fc : ℕ) (mult : ℚ)
    (rand : ℕ) (g : Ghost)
    (h : g.state = GState.CHASE ∨ g.state = GState.SCATTER) :
    (ghostPossibleDirs maze g = [] →
      updateGhostMovement maze fc mult rand g = g) ∧
    (ghostPossibleDirs maze g ≠ [] →
      getOppositeDirection
          (updateGhostMovement maze fc mult rand g).direction ≠
        g.lastDirection) := by
  have hni : ¬ (g.state = GState.IN_HOUSE) := by
    rcases h with h | h <;> simp [h]
  have hnf : ¬ (g.state = GState.FRIGHTENED) := by
    rcases h with h | h <;> simp [h]
  constructor
  · intro he
    unfold updateGhostMovement
    rw [if_neg hni]
    dsimp only
    rw [if_pos he]
  · intro hne
    rw [updateGhostMovement_direction maze fc mult rand g hni hne]
    have hmem : ghostChooseDir maze rand g ∈ ghostPossibleDirs maze g := by
      unfold ghostChooseDir
      dsimp only
      rw [if_neg hnf]
      exact chooseBestDir_mem _ _ _ hne
    have hfil := List.of_mem_filter hmem
    rw [if_neg hnf] at hfil
    simpa using hfil

/-- C2 amended witness: the dead-end instance, where the candidate list
is empty and the ghost is returned unchanged. -/
theorem updateGhostMovement_no_reversal_witness :
    deadEndGhost.state = GState.CHASE ∧
      ghostPossibleDirs MAZE_LAYOUT deadEndGhost = [] ∧
      updateGhostMovement MAZE_LAYOUT 0 1 0 deadEndGhost = deadEndGhost :=
  ⟨rfl, deadEnd_possible,
    (updateGhostMovement_no_reversal MAZE_LAYOUT 0 1 0 deadEndGhost
      (Or.inl rfl)).1 deadEnd_possible⟩

/-- The greedy choice of `corridorGhost` is LEFT (target at `(1,3)`). -/
theorem corridor_best : ghostChooseDir MAZE_LAYOUT 0 corridorGhost = Dir.LEFT := by
  unfold ghostChooseDir
  dsimp only
  rw [if_neg (show ¬ (corridorGhost.state = GState.FRIGHTENED) by decide),
    corridor_possible,
    show toGrid corridorGhost.position = ⟨2, 3⟩ from toGrid_gridToWorld ⟨2, 3⟩,
    show toGrid corridorGhost.targetPosition = ⟨1, 3⟩ from
      toGrid_gridToWorld ⟨1, 3⟩]
  decide

/-- The direction `corridorGhost` moves with on its first tick. -/
theorem corridorTick1_direction : corridorGhostTick1.direction = Dir.LEFT := by
  rw [show corridorGhostTick1.direction =
      (updateGhostMovement MAZE_LAYOUT 0 1 0 corridorGhost).direction from rfl,
    updateGhostMovement_direction MAZE_LAYOUT 0 1 0 corridorGhost (by decide)
      (by rw [corridor_possible]; decide), corridor_best]

/-- Full evaluation of `corridorGhost`'s first movement tick: it moves
LEFT by one speed unit (`1.8` pixels). -/
theorem corridorTick1_eval :
    corridorGhostTick1 = { corridorGhost with
      lastDirection := Dir.UP
      direction := Dir.LEFT
      velocity := ⟨-(9/5), 0⟩
      position := ⟨231/5, 72⟩ } := by
  unfold corridorGhostTick1
  rw [updateGhostMovement_step MAZE_LAYOUT 0 1 0 corridorGhost (by decide)
    (by rw [corridor_possible]; decide), corridor_best]
  dsimp only
  rw [show (setGhostVelocity 1 { corridorGhost with
      lastDirection := corridorGhost.direction
      direction := Dir.LEFT }) = { corridorGhost with
      lastDirection := Dir.UP
      direction := Dir.LEFT
      velocity := ⟨-(9/5 * 1), 0⟩ } from rfl]
  have hwrap : wrapNextX (((2 : ℤ) : ℚ) * 24 + -(9/5 * 1)) = 231/5 := by
    unfold wrapNextX
    rw [if_neg (by norm_num), if_neg (by norm_num [MAZE_WIDTH, CELL_SIZE])]
    norm_num
  rw [show ({ corridorGhost with
      lastDirection := Dir.UP
      direction := Dir.LEFT
      velocity := (⟨-(9/5 * 1), 0⟩ : Vel) } : Ghost).position.x +
      ({ corridorGhost with
      lastDirection := Dir.UP
      direction := Dir.LEFT
      velocity := (⟨-(9/5 * 1), 0⟩ : Vel) } : Ghost).velocity.dx =
      ((2 : ℤ) : ℚ) * 24 + -(9/5 * 1) from rfl, hwrap]
  rw [show ({ corridorGhost with
      lastDirection := Dir.UP
      direction := Dir.LEFT
      velocity := (⟨-(9/5 * 1), 0⟩ : Vel) } : Ghost).position.y +
      ({ corridorGhost with
      lastDirection := Dir.UP
      direction := Dir.LEFT
      velocity := (⟨-(9/5 * 1), 0⟩ : Vel) } : Ghost).velocity.dy =
      ((3 : ℤ) : ℚ) * 24 + 0 from rfl]
  have hg : toGrid ⟨(231/5 : ℚ), ((3 : ℤ) : ℚ) * 24 + 0⟩ = ⟨2, 3⟩ := by
    unfold toGrid jsRound CELL_SIZE
    dsimp only
    norm_num [GridPos.mk.injEq]
  rw [hg, if_pos (show isValidMove MAZE_LAYOUT ⟨2, 3⟩ = true by decide)]
  simp only [Ghost.mk.injEq]
  norm_num [corridorGhost, createGhost, gridToWorld, PosQ.mk.injEq,
    Vel.mk.injEq]

/-- The candidates of the second tick are again LEFT and RIGHT. -/
theorem corridorTick2_possible :
    ghostPossibleDirs MAZE_LAYOUT corridorGhostTick2Input =
      [Dir.LEFT, Dir.RIGHT] := by
  have hs : corridorGhostTick2Input.state = GState.CHASE := by
    rw [show corridorGhostTick2Input.state = corridorGhostTick1.state
      from rfl, corridorTick1_eval]
    rfl
  have hl : corridorGhostTick2Input.lastDirection = Dir.UP := by
    rw [show corridorGhostTick2Input.lastDirection =
      corridorGhostTick1.lastDirection from rfl, corridorTick1_eval]
  have h1 : toGrid corridorGhostTick2Input.position = ⟨2, 3⟩ := by
    rw [show corridorGhostTick2Input.position = corridorGhostTick1.position
      from rfl, corridorTick1_eval]
    show toGrid ⟨231/5, 72⟩ = ⟨2, 3⟩
    unfold toGrid jsRound CELL_SIZE
    norm_num [GridPos.mk.injEq]
  unfold ghostPossibleDirs
  rw [h1]
  simp only [hs, hl]
  decide

/-- On the second tick the ghost turns RIGHT, reversing its first-tick
LEFT movement, because the no-reversal filter still checks against the
stale `lastDirection = UP`. -/
theorem corridorTick2_direction :
    (updateGhostMovement MAZE_LAYOUT 0 1 0 corridorGhostTick2Input).direction
      = Dir.RIGHT := by
  have hs : corridorGhostTick2Input.state = GState.CHASE := by
    rw [show corridorGhostTick2Input.state = corridorGhostTick1.state
      from rfl, corridorTick1_eval]
    rfl
  have h1 : toGrid corridorGhostTick2Input.position = ⟨2, 3⟩ := by
    rw [show corridorGhostTick2Input.position = corridorGhostTick1.position
      from rfl, corridorTick1_eval]
    show toGrid ⟨231/5, 72⟩ = ⟨2, 3⟩
    unfold toGrid jsRound CELL_SIZE
    norm_num [GridPos.mk.injEq]
  rw [updateGhostMovement_direction MAZE_LAYOUT 0 1 0 corridorGhostTick2Input
    (by rw [hs]; decide) (by rw [corridorTick2_possible]; decide)]
  unfold ghostChooseDir
  dsimp only
  rw [if_neg (by rw [hs]; decide), corridorTick2_possible, h1,
    show toGrid corridorGhostTick2Input.targetPosition = ⟨4, 3⟩ from
      toGrid_gridToWorld ⟨4, 3⟩]
  decide

/-- C2 counterexample: the claim fails on the code in both halves.
In the dead-end pocket `(0,7)` of the shipped maze a CHASE ghost whose
`lastDirection` is LEFT has the walkable neighbor RIGHT available, yet
the tick returns it unchanged — the no-reversal constraint is not
relaxed and the adversary does not move.  And on the corridor trace, the
second tick picks RIGHT — the exact reverse of the LEFT the ghost moved
with on the previous tick — while LEFT was also walkable, because the
filter consults the one-tick-stale `lastDirection` field. -/
theorem ghost_reversal_claim_fails :
    (updateGhostMovement MAZE_LAYOUT 0 1 0 deadEndGhost = deadEndGhost ∧
      getPossibleDirections MAZE_LAYOUT ⟨0, 7⟩ = [Dir.RIGHT]) ∧
    (corridorGhostTick1.direction = Dir.LEFT ∧
      (updateGhostMovement MAZE_LAYOUT 0 1 0
          corridorGhostTick2Input).direction =
        getOppositeDirection corridorGhostTick1.direction ∧
      Dir.LEFT ∈ ghostPossibleDirs MAZE_LAYOUT corridorGhostTick2Input) := by
  refine ⟨⟨?_, by decide⟩, corridorTick1_direction, ?_, ?_⟩
  · unfold updateGhostMovement
    rw [if_neg (show ¬ (deadEndGhost.state = GState.IN_HOUSE) by decide)]
    dsimp only
    rw [if_pos deadEnd_possible]
  · rw [corridorTick2_direction, corridorTick1_direction]
    decide
  · rw [corridorTick2_possible]
    decide

/-! ### Targeting theorems -/

/-- `adaptGhostBehavior` never reads the ghost's state field. -/
theorem adaptGhostBehavior_state_blind (sqrtFn : ℚ → ℚ) (ai : AIState)
    (g : Ghost) (pac : PacMan) (ghosts : List Ghost) :
    adaptGhostBehavior sqrtFn ai { g with state := GState.CHASE } pac ghosts
      = adaptGhostBehavior sqrtFn ai g pac ghosts := by
  cases g
  rfl

/-- C6 counterexample: Blinky in SCATTER with the player at world
position `(216, 360)` (grid `(9,15)`) keeps SCATTER as its state for the
tick yet is assigned the player's position as its pursuit target — not
its scatter corner `(408, 0)`. -/
theorem scatter_corner_claim_fails :
    (updateGhostState id initialAIState 600 (pacAt (gridToWorld ⟨9, 15⟩))
        [scatterBlinky] scatterBlinky).state = GState.SCATTER ∧
      (updateGhostState id initialAIState 600 (pacAt (gridToWorld ⟨9, 15⟩))
          [scatterBlinky] scatterBlinky).targetPosition =
        (pacAt (gridToWorld ⟨9, 15⟩)).position ∧
      (updateGhostState id initialAIState 600 (pacAt (gridToWorld ⟨9, 15⟩))
          [scatterBlinky] scatterBlinky).targetPosition ≠
        scatterBlinky.scatterTarget := by
  have hadapt : adaptGhostBehavior id initialAIState scatterBlinky
      (pacAt (gridToWorld ⟨9, 15⟩)) [scatterBlinky] = gridToWorld ⟨9, 15⟩ := by
    unfold adaptGhostBehavior
    dsimp only
    rw [if_pos (show initialAIState.learningLevel < 20 by
      norm_num [initialAIState])]
    rfl
  have heval : updateGhostState id initialAIState 600
      (pacAt (gridToWorld ⟨9, 15⟩)) [scatterBlinky] scatterBlinky =
      { { scatterBlinky with targetPosition := gridToWorld ⟨9, 15⟩ } with
        state := GState.SCATTER } := by
    unfold updateGhostState
    rw [if_neg (show ¬ (scatterBlinky.state = GState.IN_HOUSE ∧
        0 < scatterBlinky.houseTimer) by decide),
      if_neg (show ¬ (scatterBlinky.state = GState.FRIGHTENED) by decide),
      if_neg (show ¬ (scatterBlinky.state = GState.EATEN) by decide)]
    dsimp only
    rw [hadapt, if_neg (show ¬ ((600 / 600) % 2 = 0) by decide)]
  rw [heval]
  refine ⟨rfl, rfl, ?_⟩
  show gridToWorld ⟨9, 15⟩ ≠ scatterBlinky.scatterTarget
  rw [show scatterBlinky.scatterTarget = gridToWorld ⟨17, 0⟩ from rfl]
  simp only [gridToWorld, PosQ.mk.injEq, not_and]
  intro h
  norm_num [CELL_SIZE] at h

/-- C6 (amended): in SCATTER the assigned pursuit target is the same the
ghost would get in CHASE — target selection ignores the chase/scatter
mode entirely (only Clyde's role logic can ever produce the scatter
corner, and only as its chase behavior). -/
theorem updateGhostState_scatter_target_mode_blind (sqrtFn : ℚ → ℚ)
    (ai : AIState) (fc : ℕ) (pac : PacMan) (ghosts : List Ghost)
    (g : Ghost) (h : g.state = GState.SCATTER) :
    (updateGhostState sqrtFn ai fc pac ghosts g).targetPosition =
      (updateGhostState sqrtFn ai fc pac ghosts
        { g with state := GState.CHASE }).targetPosition := by
  unfold updateGhostState
  rw [if_neg (show ¬ (g.state = GState.IN_HOUSE ∧ 0 < g.houseTimer) by
      simp [h]),
    if_neg (show ¬ (g.state = GState.FRIGHTENED) by simp [h]),
    if_neg (show ¬ (g.state = GState.EATEN) by simp [h]),
    if_neg (show ¬ (GState.CHASE = GState.IN_HOUSE ∧ 0 < g.houseTimer) by
      simp),
    if_neg (show ¬ (GState.CHASE = GState.FRIGHTENED) by simp),
    if_neg (show ¬ (GState.CHASE = GState.EATEN) by simp)]
  dsimp only
  rw [adaptGhostBehavior_state_blind]

/-- C6 amended witness: the SCATTER Blinky instance. -/
theorem updateGhostState_scatter_target_mode_blind_witness :
    scatterBlinky.state = GState.SCATTER ∧
      (updateGhostState id initialAIState 0 createPacMan []
          scatterBlinky).targetPosition =
        (updateGhostState id initialAIState 0 createPacMan []
          { scatterBlinky with state := GState.CHASE }).targetPosition :=
  ⟨rfl, updateGhostState_scatter_target_mode_blind id initialAIState 0
    createPacMan [] scatterBlinky rfl⟩

/-! ### Scoring theorems -/

/-- The collision body on a FRIGHTENED ghost within grid distance 1:
eat the ghost, award `POINTS_GHOST_BASE * 2 ^ ghostEatenCount`, bump the
counter. -/
theorem collide_frightened (pacGrid : GridPos) (s : GameStateM) (g : Ghost)
    (hf : g.state = GState.FRIGHTENED)
    (hd : (pacGrid.x - (toGrid g.position).x).natAbs +
      (pacGrid.y - (toGrid g.position).y).natAbs < 1) :
    collideGhost pacGrid s g =
      ({ s with
        score := s.score + POINTS_GHOST_BASE * 2 ^ s.ghostEatenCount
        ghostEatenCount := s.ghostEatenCount + 1
        screenShake := true },
       { g with state := GState.EATEN }) := by
  unfold collideGhost
  dsimp only
  rw [if_pos hd, if_pos hf]

/-- The frightened ghost on Pac-Man's cell collides at grid distance 0. -/
theorem frightGhostAtPac_dist :
    ((⟨9, 15⟩ : GridPos).x - (toGrid frightGhostAtPac.position).x).natAbs +
      ((⟨9, 15⟩ : GridPos).y - (toGrid frightGhostAtPac.position).y).natAbs
      < 1 := by
  rw [show toGrid frightGhostAtPac.position = ⟨9, 15⟩ from
    toGrid_gridToWorld ⟨9, 15⟩]
  decide

/-- C3: capturing a FRIGHTENED adversary awards
`POINTS_GHOST_BASE * 2 ^ (captures so far this activation)` and
increments the capture counter; `activatePowerPellet` resets the counter
to zero; and a fresh activation followed by four consecutive captures
awards base, 2*base, 4*base, 8*base. -/
theorem ghost_capture_scoring :
    (∀ (pacGrid : GridPos) (s : GameStateM) (g : Ghost),
      g.state = GState.FRIGHTENED →
      (pacGrid.x - (toGrid g.position).x).natAbs +
        (pacGrid.y - (toGrid g.position).y).natAbs < 1 →
      (collideGhost pacGrid s g).1.score =
          s.score + POINTS_GHOST_BASE * 2 ^ s.ghostEatenCount ∧
        (collideGhost pacGrid s g).1.ghostEatenCount =
          s.ghostEatenCount + 1 ∧
        (collideGhost pacGrid s g).2.state = GState.EATEN) ∧
    (∀ s : GameStateM, (activatePowerPellet s).ghostEatenCount = 0) ∧
    ((checkGhostCollisions capture4State).score =
        POINTS_GHOST_BASE * 1 + POINTS_GHOST_BASE * 2 +
          POINTS_GHOST_BASE * 4 + POINTS_GHOST_BASE * 8 ∧
      (checkGhostCollisions capture4State).ghostEatenCount = 4) := by
  have hstep : ∀ s : GameStateM,
      collideGhost ⟨9, 15⟩ s frightGhostAtPac =
      ({ s with
        score := s.score + POINTS_GHOST_BASE * 2 ^ s.ghostEatenCount
        ghostEatenCount := s.ghostEatenCount + 1
        screenShake := true },
       { frightGhostAtPac with state := GState.EATEN }) :=
    fun s => collide_frightened ⟨9, 15⟩ s frightGhostAtPac rfl
      frightGhostAtPac_dist
  refine ⟨?_, fun s => rfl, ?_, ?_⟩
  · intro pacGrid s g hf hd
    rw [collide_frightened pacGrid s g hf hd]
    exact ⟨rfl, rfl, rfl⟩
  · unfold checkGhostCollisions
    simp only [show toGrid capture4State.pacman.position = ⟨9, 15⟩ from
        toGrid_gridToWorld ⟨9, 15⟩,
      show capture4State.ghosts = [frightGhostAtPac, frightGhostAtPac,
        frightGhostAtPac, frightGhostAtPac] from rfl,
      List.foldl_cons, List.foldl_nil, hstep]
    decide
  · unfold checkGhostCollisions
    simp only [show toGrid capture4State.pacman.position = ⟨9, 15⟩ from
        toGrid_gridToWorld ⟨9, 15⟩,
      show capture4State.ghosts = [frightGhostAtPac, frightGhostAtPac,
        frightGhostAtPac, frightGhostAtPac] from rfl,
      List.foldl_cons, List.foldl_nil, hstep]
    decide

/-- C3 witness: one capture from a fresh game state awards the base
value and sets the counter to 1. -/
theorem ghost_capture_scoring_witness :
    frightGhostAtPac.state = GState.FRIGHTENED ∧
      ((collideGhost ⟨9, 15⟩ (initGameState 0) frightGhostAtPac).1.score =
          (initGameState 0).score +
            POINTS_GHOST_BASE * 2 ^ (initGameState 0).ghostEatenCount ∧
        (collideGhost ⟨9, 15⟩ (initGameState 0)
            frightGhostAtPac).1.ghostEatenCount =
          (initGameState 0).ghostEatenCount + 1 ∧
        (collideGhost ⟨9, 15⟩ (initGameState 0)
            frightGhostAtPac).2.state = GState.EATEN) :=
  ⟨rfl, ghost_capture_scoring.1 ⟨9, 15⟩ (initGameState 0) frightGhostAtPac
    rfl frightGhostAtPac_dist⟩

/-! ### Wraparound theorems -/

/-- C9: the tunnel wraparound maps a next x past the left bound to the
rightmost column `MAZE_WIDTH - 1` and a next x past the right bound to
column `0`; and in both the player's and the adversaries' movement code
the wraparound is applied to the next x before the walkability check,
with the y coordinate passed through unchanged. -/
theorem tunnel_wraparound_spec :
    (∀ q : ℚ, q < 0 →
      wrapNextX q = ((MAZE_WIDTH : ℚ) - 1) * CELL_SIZE ∧
        jsRound (wrapNextX q / CELL_SIZE) = (MAZE_WIDTH : ℤ) - 1) ∧
    (∀ q : ℚ, (MAZE_WIDTH : ℚ) * CELL_SIZE ≤ q →
      wrapNextX q = 0 ∧ jsRound (wrapNextX q / CELL_SIZE) = 0) ∧
    (∀ (maze : Maze) (p : PacMan), p.direction ≠ Dir.NONE →
      pacMove maze p =
        (if isValidMove maze
            (toGrid ⟨wrapNextX (p.position.x + p.velocity.dx),
              p.position.y + p.velocity.dy⟩) then
          { p with position := ⟨wrapNextX (p.position.x + p.velocity.dx),
              p.position.y + p.velocity.dy⟩ }
        else { p with direction := Dir.NONE, velocity := ⟨0, 0⟩ })) ∧
    (∀ (maze : Maze) (fc : ℕ) (mult : ℚ) (rand : ℕ) (g : Ghost),
      ¬ (g.state = GState.IN_HOUSE) →
      ¬ (ghostPossibleDirs maze g = []) →
      updateGhostMovement maze fc mult rand g =
        (let g2 := setGhostVelocity mult { g with
            lastDirection := g.direction
            direction := ghostChooseDir maze rand g };
          if isValidMove maze
              (toGrid ⟨wrapNextX (g2.position.x + g2.velocity.dx),
                g2.position.y + g2.velocity.dy⟩) then
            { g2 with position :=
                ⟨wrapNextX (g2.position.x + g2.velocity.dx),
                  g2.position.y + g2.velocity.dy⟩ }
          else g2)) := by
  refine ⟨?_, ?_, fun maze p h => pacMove_step maze p h,
    fun maze fc mult rand g h1 h2 =>
      updateGhostMovement_step maze fc mult rand g h1 h2⟩
  · intro q hq
    constructor
    · unfold wrapNextX
      rw [if_pos hq]
    · unfold wrapNextX
      rw [if_pos hq]
      unfold jsRound
      norm_num [MAZE_WIDTH, CELL_SIZE]
  · intro q hq
    have hq0 : ¬ (q < 0) := by
      have h0 : (0 : ℚ) ≤ (MAZE_WIDTH : ℚ) * CELL_SIZE := by
        norm_num [MAZE_WIDTH, CELL_SIZE]
      linarith
    constructor
    · unfold wrapNextX
      rw [if_neg hq0, if_pos hq]
    · unfold wrapNextX
      rw [if_neg hq0, if_pos hq]
      unfold jsRound
      norm_num

/-- C9 witness: concrete instances — a next x of `-2` wraps to pixel
column `432` (grid column 18), a next x of `456` wraps to `0`, Pac-Man
at the left tunnel mouth moving LEFT teleports to the right edge, and
the corridor ghost's tick follows the wrapped-then-checked equation. -/
theorem tunnel_wraparound_spec_witness :
    ((-2 : ℚ) < 0 ∧ wrapNextX (-2) = ((MAZE_WIDTH : ℚ) - 1) * CELL_SIZE ∧
      jsRound (wrapNextX (-2) / CELL_SIZE) = (MAZE_WIDTH : ℤ) - 1) ∧
    ((MAZE_WIDTH : ℚ) * CELL_SIZE ≤ 456 ∧ wrapNextX 456 = 0) ∧
    (pacMove MAZE_LAYOUT tunnelPac =
      (if isValidMove MAZE_LAYOUT
          (toGrid ⟨wrapNextX (tunnelPac.position.x + tunnelPac.velocity.dx),
            tunnelPac.position.y + tunnelPac.velocity.dy⟩) then
        { tunnelPac with position :=
            ⟨wrapNextX (tunnelPac.position.x + tunnelPac.velocity.dx),
              tunnelPac.position.y + tunnelPac.velocity.dy⟩ }
      else { tunnelPac with direction := Dir.NONE, velocity := ⟨0, 0⟩ })) ∧
    (pacMove MAZE_LAYOUT tunnelPac).position.x =
      ((MAZE_WIDTH : ℚ) - 1) * CELL_SIZE :=
  ⟨⟨by norm_num, (tunnel_wraparound_spec.1 (-2) (by norm_num)).1,
      (tunnel_wraparound_spec.1 (-2) (by norm_num)).2⟩,
    ⟨by norm_num [MAZE_WIDTH, CELL_SIZE],
      (tunnel_wraparound_spec.2.1 456
        (by norm_num [MAZE_WIDTH, CELL_SIZE])).1⟩,
    tunnel_wraparound_spec.2.2.1 MAZE_LAYOUT tunnelPac (by decide),
    by
      rw [tunnel_wraparound_spec.2.2.1 MAZE_LAYOUT tunnelPac (by decide)]
      have hwx : wrapNextX (tunnelPac.position.x + tunnelPac.velocity.dx) =
          ((MAZE_WIDTH : ℚ) - 1) * CELL_SIZE := by
        apply (tunnel_wraparound_spec.1
          (tunnelPac.position.x + tunnelPac.velocity.dx) ?_).1
        show ((0 : ℤ) : ℚ) * 24 + -2 < 0
        norm_num
      rw [hwx]
      have hg : toGrid ⟨((MAZE_WIDTH : ℚ) - 1) * CELL_SIZE,
          tunnelPac.position.y + tunnelPac.velocity.dy⟩ = ⟨18, 9⟩ := by
        show toGrid ⟨((MAZE_WIDTH : ℚ) - 1) * CELL_SIZE,
          ((9 : ℤ) : ℚ) * 24 + 0⟩ = ⟨18, 9⟩
        unfold toGrid jsRound CELL_SIZE MAZE_WIDTH
        norm_num [GridPos.mk.injEq]
      rw [hg, if_pos (show isValidMove MAZE_LAYOUT ⟨18, 9⟩ = true by decide)]⟩

/-! ### Pattern learner theorems -/

/-- A record from an empty pattern window leaves the window empty and the
learning level unchanged: after the push the length is 1, which already
exceeds `PATTERN_THRESHOLD = 0.6`, so the pushed entry is evicted at
once; the weights of an empty window give no positive consistency. -/
theorem recordPlayerMovement_from_empty (s : AIState) (d : Dir)
    (h : s.playerPatterns = []) :
    (recordPlayerMovement s d).playerPatterns = [] ∧
      (recordPlayerMovement s d).learningLevel = s.learningLevel := by
  have h1 : ((([] : List Dir) ++ [d]).length : ℚ) > PATTERN_THRESHOLD := by
    norm_num [PATTERN_THRESHOLD]
  unfold recordPlayerMovement
  rw [h]
  dsimp only
  rw [if_pos h1]
  refine ⟨rfl, ?_⟩
  show updateLearningLevel (updatePatternWeights (([] : List Dir) ++ [d]).tail)
    s.learningLevel = s.learningLevel
  norm_num [updatePatternWeights, updateLearningLevel, maxWeight]

/-- From the initial engine state, any sequence of recorded movements
leaves the pattern window empty and the learning level at `0`. -/
theorem recordMoves_init_zero (l : List Dir) :
    (recordMoves initialAIState l).playerPatterns = [] ∧
      (recordMoves initialAIState l).learningLevel = 0 := by
  suffices h : ∀ (s : AIState), s.playerPatterns = [] →
      (l.foldl recordPlayerMovement s).playerPatterns = [] ∧
        (l.foldl recordPlayerMovement s).learningLevel = s.learningLevel by
    exact (h initialAIState rfl).imp id (fun hh => hh)
  induction l with
  | nil => intro s hs; exact ⟨hs, rfl⟩
  | cons d l ih =>
    intro s hs
    rw [List.foldl_cons]
    have h1 := recordPlayerMovement_from_empty s d hs
    have h2 := ih (recordPlayerMovement s d) h1.1
    exact ⟨h2.1, h2.2.trans h1.2⟩

/-- C5: every recorded movement updates the learning level by
`consistency = maxWeight - 0.25`; if positive, the level becomes
`min(level + consistency * LEARNING_RATE, MAX_LEARNING_LEVEL)`, else it
is unchanged; and a perfectly uniform round-robin of the 4 directions
leaves the learning level at its initial value `0`. -/
theorem recordPlayerMovement_learning_spec :
    (∀ (s : AIState) (d : Dir),
      (recordPlayerMovement s d).learningLevel =
        (if maxWeight (recordPlayerMovement s d).patternWeights - 1/4 > 0
        then
          min (s.learningLevel +
            (maxWeight (recordPlayerMovement s d).patternWeights - 1/4) *
              LEARNING_RATE) MAX_LEARNING_LEVEL
        else s.learningLevel)) ∧
    (∀ k : ℕ, (recordMoves initialAIState (roundRobin k)).learningLevel = 0)
    :=
  ⟨fun _ _ => rfl, fun k => (recordMoves_init_zero (roundRobin k)).2⟩

/-- C7: the claim is right and the code is wrong.  After two recorded
movements the pattern memory is empty, not the last
`min(2, AI_PATTERN_MEMORY) = 2` directions: `recordPlayerMovement`
compares the window length against `AI_CONFIG.PATTERN_THRESHOLD`
(the number `0.6`, a weight threshold) instead of the pattern-memory
bound `GAME_CONFIG.AI_PATTERN_MEMORY = 20`, so every push is followed by
an immediate eviction. -/
theorem recordPlayerMovement_pattern_memory_bug :
    (recordPlayerMovement (recordPlayerMovement initialAIState Dir.UP)
        Dir.UP).playerPatterns = [] ∧
      AI_PATTERN_MEMORY = 20 := by
  have h1 := recordPlayerMovement_from_empty initialAIState Dir.UP rfl
  have h2 := recordPlayerMovement_from_empty
    (recordPlayerMovement initialAIState Dir.UP) Dir.UP h1.1
  exact ⟨h2.1, rfl⟩

/-- C8: the learning level never decreases at any update and never
exceeds `MAX_LEARNING_LEVEL`; every state reachable from the initial
engine keeps it at `0`; and a full game reset (`restartGame`) produces a
game state whose learning-level field is `0`. -/
theorem learning_level_monotone_and_reset :
    (∀ (s : AIState) (d : Dir),
      0 ≤ s.learningLevel → s.learningLevel ≤ MAX_LEARNING_LEVEL →
      s.learningLevel ≤ (recordPlayerMovement s d).learningLevel ∧
        (recordPlayerMovement s d).learningLevel ≤ MAX_LEARNING_LEVEL) ∧
    (∀ l : List Dir, (recordMoves initialAIState l).learningLevel = 0) ∧
    (∀ (storedHighScore : ℕ) (e : EngineState),
      (restartGame storedHighScore e).gameState.aiLearningLevel = 0) := by
  refine ⟨?_, fun l => (recordMoves_init_zero l).2, fun _ _ => rfl⟩
  intro s d h0 hmax
  have heq : (recordPlayerMovement s d).learningLevel =
      updateLearningLevel (recordPlayerMovement s d).patternWeights
        s.learningLevel := rfl
  rw [heq]
  unfold updateLearningLevel
  dsimp only
  by_cases hc : maxWeight (recordPlayerMovement s d).patternWeights - 1/4 > 0
  · rw [if_pos hc]
    have hrate : (0 : ℚ) < LEARNING_RATE := by norm_num [LEARNING_RATE]
    constructor
    · apply le_min
      · nlinarith
      · exact hmax
    · exact min_le_right _ _
  · rw [if_neg hc]
    exact ⟨le_refl _, hmax⟩

/-- C8 witness: the monotonicity instance at the initial engine state. -/
theorem learning_level_monotone_and_reset_witness :
    (0 : ℚ) ≤ initialAIState.learningLevel ∧
      initialAIState.learningLevel ≤ MAX_LEARNING_LEVEL ∧
      (initialAIState.learningLevel ≤
          (recordPlayerMovement initialAIState Dir.UP).learningLevel ∧
        (recordPlayerMovement initialAIState Dir.UP).learningLevel ≤
          MAX_LEARNING_LEVEL) :=
  ⟨by norm_num [initialAIState], by norm_num [initialAIState,
      MAX_LEARNING_LEVEL],
    learning_level_monotone_and_reset.1 initialAIState Dir.UP
      (by norm_num [initialAIState])
      (by norm_num [initialAIState, MAX_LEARNING_LEVEL])⟩

/-! ### Danger field theorems -/

/-- `getD` through `(List.range n).map f`. -/
theorem getD_range_map {α : Type} (n m : ℕ) (f : ℕ → α) (d : α)
    (h : m < n) : ((List.range n).map f).getD m d = f m := by
  rw [List.getD_eq_getElem?_getD, List.getElem?_map, List.getElem?_range h]
  rfl

/-- Each ghost contributes a nonnegative amount to the danger sum. -/
theorem dangerContribution_nonneg (position : PosQ) (g : Ghost) :
    0 ≤ dangerContribution position g := by
  unfold dangerContribution
  split_ifs with h1 h2
  · exact le_refl 0
  · apply div_nonneg
    · linarith
    · norm_num [DANGER_RADIUS]
  · exact le_refl 0

/-- The accumulation loop of `calculateDangerLevel` computes the sum of
the per-ghost contributions. -/
theorem danger_foldl (position : PosQ) :
    ∀ (l : List Ghost) (a : ℚ),
      l.foldl (fun acc g =>
        if g.state = GState.FRIGHTENED ∨ g.state = GState.EATEN then acc
        else
          let distance := manhattanQ position g.position
          if distance ≤ DANGER_RADIUS then
            acc + (DANGER_RADIUS - distance) / DANGER_RADIUS
          else acc) a =
      a + (l.map (dangerContribution position)).sum := by
  intro l
  induction l with
  | nil => intro a; simp
  | cons g l ih =>
    intro a
    rw [List.foldl_cons, ih, List.map_cons, List.sum_cons]
    unfold dangerContribution
    dsimp only
    split_ifs with h1 h2
    · ring
    · ring
    · ring

/-- `calculateDangerLevel` equals the clamped contribution sum. -/
theorem calculateDangerLevel_eq_sum (position : PosQ)
    (ghosts : List Ghost) :
    calculateDangerLevel position ghosts =
      min ((ghosts.map (dangerContribution position)).sum) 1 := by
  unfold calculateDangerLevel
  rw [danger_foldl position ghosts 0, zero_add]

/-- C4: the danger field assigns wall cells the sentinel `-1` and every
other cell the clamped sum of `(R - d)/R` over non-neutral adversaries
within Manhattan distance `R`; the value lies in `[0,1]`; a cell farther
than `R` from every non-neutral adversary gets exactly `0`; a cell
coincident with a non-neutral adversary receives contribution `1` from
that adversary before clamping. -/
theorem generateDangerHeatmap_spec (ghosts : List Ghost) (maze : Maze)
    (y x : ℕ) (hy : y < maze.length) (hx : x < mazeW maze) :
    ((maze.getD y []).getD x Cell.empty = Cell.wall →
      ((generateDangerHeatmap ghosts maze).getD y []).getD x 0 = -1) ∧
    ((maze.getD y []).getD x Cell.empty ≠ Cell.wall →
      ((generateDangerHeatmap ghosts maze).getD y []).getD x 0 =
        min ((ghosts.map
          (dangerContribution ⟨(x : ℚ), (y : ℚ)⟩)).sum) 1 ∧
      0 ≤ ((generateDangerHeatmap ghosts maze).getD y []).getD x 0 ∧
      ((generateDangerHeatmap ghosts maze).getD y []).getD x 0 ≤ 1 ∧
      ((∀ g ∈ ghosts, g.state ≠ GState.FRIGHTENED →
          g.state ≠ GState.EATEN →
          DANGER_RADIUS < manhattanQ ⟨(x : ℚ), (y : ℚ)⟩ g.position) →
        ((generateDangerHeatmap ghosts maze).getD y []).getD x 0 = 0)) ∧
    (∀ g : Ghost, g.state ≠ GState.FRIGHTENED → g.state ≠ GState.EATEN →
      g.position = ⟨(x : ℚ), (y : ℚ)⟩ →
      dangerContribution ⟨(x : ℚ), (y : ℚ)⟩ g = 1) := by
  have hrow : (generateDangerHeatmap ghosts maze).getD y [] =
      (List.range (mazeW maze)).map (fun x =>
        if (maze.getD y []).getD x Cell.empty = Cell.wall then -1
        else calculateDangerLevel ⟨(x : ℚ), (y : ℚ)⟩ ghosts) := by
    unfold generateDangerHeatmap
    exact getD_range_map _ _ _ _ hy
  have hentry : ((generateDangerHeatmap ghosts maze).getD y []).getD x 0 =
      (if (maze.getD y []).getD x Cell.empty = Cell.wall then -1
      else calculateDangerLevel ⟨(x : ℚ), (y : ℚ)⟩ ghosts) := by
    rw [hrow]
    exact getD_range_map _ _ _ _ hx
  refine ⟨?_, ?_, ?_⟩
  · intro hwall
    rw [hentry, if_pos hwall]
  · intro hnw
    rw [hentry, if_neg hnw, calculateDangerLevel_eq_sum]
    have hsum : 0 ≤ ((ghosts.map
        (dangerContribution ⟨(x : ℚ), (y : ℚ)⟩)).sum) := by
      apply List.sum_nonneg
      intro q hq
      obtain ⟨g, _, rfl⟩ := List.mem_map.mp hq
      exact dangerContribution_nonneg _ g
    refine ⟨rfl, le_min hsum (by norm_num), min_le_right _ _, ?_⟩
    intro hfar
    have hz : ((ghosts.map
        (dangerContribution ⟨(x : ℚ), (y : ℚ)⟩)).sum) = 0 := by
      apply List.sum_eq_zero
      intro q hq
      obtain ⟨g, hg, rfl⟩ := List.mem_map.mp hq
      unfold dangerContribution
      split_ifs with h1 h2
      · rfl
      · exfalso
        have hne := not_or.mp h1
        exact absurd h2 (not_le.mpr (hfar g hg hne.1 hne.2))
      · rfl
    rw [hz]
    norm_num
  · intro g hf he hpos
    unfold dangerContribution
    rw [if_neg (by simp [hf, he]), hpos]
    have hz : manhattanQ ⟨(x : ℚ), (y : ℚ)⟩ ⟨(x : ℚ), (y : ℚ)⟩ = 0 := by
      simp [manhattanQ]
    rw [if_pos (by rw [hz]; norm_num [DANGER_RADIUS]), hz]
    norm_num [DANGER_RADIUS]

/-- C4 witness: on the 1×2 maze `[wall, empty]` with one CHASE ghost
standing on cell `(1,0)`, the heatmap is `[[-1, 1]]`. -/
theorem generateDangerHeatmap_spec_witness :
    (((generateDangerHeatmap [dangerGhostW]
          [[Cell.wall, Cell.empty]]).getD 0 []).getD 0 0 = -1 ∧
      ((generateDangerHeatmap [dangerGhostW]
          [[Cell.wall, Cell.empty]]).getD 0 []).getD 1 0 =
        min (([dangerGhostW].map
          (dangerContribution ⟨(1 : ℚ), (0 : ℚ)⟩)).sum) 1 ∧
      dangerContribution ⟨(1 : ℚ), (0 : ℚ)⟩ dangerGhostW = 1) :=
  ⟨(generateDangerHeatmap_spec [dangerGhostW] [[Cell.wall, Cell.empty]]
      0 0 (by decide) (by decide)).1 (by decide),
    ((generateDangerHeatmap_spec [dangerGhostW] [[Cell.wall, Cell.empty]]
      0 1 (by decide) (by decide)).2.1 (by decide)).1,
    (generateDangerHeatmap_spec [dangerGhostW] [[Cell.wall, Cell.empty]]
      0 1 (by decide) (by decide)).2.2 dangerGhostW (by decide)
      (by decide) (by decide)⟩

end Pacman

namespace Pacman

/-! ## Theorems -/

/-- Path reconstruction never terminates once `cameFrom` holds a 2-cycle
that the chain has entered. -/
theorem reconstructPath_cycle (cf : List (GridPos × GridPos))
    (a b : GridPos) (ha : alGet cf a = some b) (hb : alGet cf b = some a) :
    ∀ m, (∀ acc, reconstructPath cf m a acc = none) ∧
      (∀ acc, reconstructPath cf m b acc = none) := by
  intro m
  induction m with
  | zero => exact ⟨fun _ => rfl, fun _ => rfl⟩
  | succ k ih =>
    refine ⟨fun acc => ?_, fun acc => ?_⟩
    · show reconstructPath cf (k + 1) a acc = none
      rw [reconstructPath, ha]
      exact ih.2 (a :: acc)
    · show reconstructPath cf (k + 1) b acc = none
      rw [reconstructPath, hb]
      exact ih.1 (b :: acc)

/-- Filtering out the entries that carry key `k` does not change a lookup
for a different key. -/
theorem find_filter_ne {α : Type} {m : List (GridPos × α)} {k n : GridPos}
    (h : n ≠ k) :
    (m.filter fun e => ¬ (e.1 = k)).find? (fun e => e.1 = n) =
      m.find? (fun e => e.1 = n) := by
  induction m with
  | nil => rfl
  | cons a m ih =>
    by_cases han : a.1 = n
    · have hak : ¬ (a.1 = k) := by rw [han]; exact h
      rw [List.filter_cons_of_pos (by simpa using hak),
        List.find?_cons_of_pos _ (by simpa using han),
        List.find?_cons_of_pos _ (by simpa using han)]
    · by_cases hak : a.1 = k
      · rw [List.filter_cons_of_neg (by simpa using hak),
          List.find?_cons_of_neg _ (by simpa using han), ih]
      · rw [List.filter_cons_of_pos (by simpa using hak),
          List.find?_cons_of_neg _ (by simpa using han),
          List.find?_cons_of_neg _ (by simpa using han), ih]

/-- Lookup after `map.set`. -/
theorem alGet_alSet {α : Type} (m : List (GridPos × α)) (k : GridPos)
    (v : α) (n : GridPos) :
    alGet (alSet m k v) n = if n = k then some v else alGet m n := by
  by_cases h : n = k
  · subst h
    rw [if_pos rfl]
    unfold alGet alSet
    rw [List.find?_cons_of_pos _ (by simp)]
    rfl
  · rw [if_neg h]
    unfold alGet alSet
    rw [List.find?_cons_of_neg _ (by simp [Ne.symm h]), find_filter_ne h]

/-- Stepping one cell in a real direction lands on a 4-adjacent cell. -/
theorem adj_getNextPosition (p : GridPos) (d : Dir) (hd : d ≠ Dir.NONE) :
    Adj p (getNextPosition p d) := by
  cases d <;> simp [Adj, manhattanDist, getNextPosition] at * <;> omega

/-- 4-adjacent cells are distinct. -/
theorem ne_of_adj {a b : GridPos} (h : Adj a b) : a ≠ b := by
  intro hh
  subst hh
  simp [Adj, manhattanDist] at h

/-- The scanning loop of the frontier minimum search returns either the
incoming best index or an index in the scanned range. -/
theorem minIndexAux_bound (fS : List (GridPos × ℕ)) :
    ∀ (rest : List GridPos) (best : GridPos) (bestIdx i : ℕ),
      minIndexAux fS rest best bestIdx i = bestIdx ∨
        (i ≤ minIndexAux fS rest best bestIdx i ∧
          minIndexAux fS rest best bestIdx i < i + rest.length) := by
  intro rest
  induction rest with
  | nil => intro best bestIdx i; left; rfl
  | cons q rest ih =>
    intro best bestIdx i
    unfold minIndexAux
    split
    · rcases ih q i (i + 1) with h1 | h1
      · right; rw [h1]; simp
      · right; simp only [List.length_cons]; omega
    · rcases ih best bestIdx (i + 1) with h1 | h1
      · left; exact h1
      · right; simp only [List.length_cons]; omega

/-- The frontier minimum search returns an in-range index. -/
theorem minIndex_lt_length (fS : List (GridPos × ℕ)) (l : List GridPos)
    (hl : l ≠ []) : minIndex fS l < l.length := by
  match l with
  | p :: rest =>
    show minIndexAux fS rest p 0 1 < (p :: rest).length
    rcases minIndexAux_bound fS rest p 0 1 with h | h
    · rw [h]; simp
    · simp only [List.length_cons]; omega

/-- `getD` at an in-range index is a member. -/
theorem getD_mem {l : List GridPos} {n : ℕ} (h : n < l.length)
    (d : GridPos) : l.getD n d ∈ l := by
  rw [List.getD_eq_getElem?_getD, List.getElem?_eq_getElem h]
  exact List.getElem_mem h

/-- One neighbor relaxation preserves the loop invariant, keeps the
current cell's `gScore`, and only grows the `gScore` domain. -/
theorem relaxDir_preserves (goal : GridPos) {maze : Maze}
    {start current : GridPos}
    {st : AStarState} {d : Dir} (hd : d ≠ Dir.NONE)
    (hinv : StInv maze start st)
    (hcur : (alGet st.gScore current).isSome) :
    StInv maze start (relaxDir maze goal current st d) ∧
      (alGet (relaxDir maze goal current st d).gScore current).isSome ∧
      (∀ p, (alGet st.gScore p).isSome →
        (alGet (relaxDir maze goal current st d).gScore p).isSome) := by
  unfold relaxDir
  dsimp only
  split
  · exact ⟨hinv, hcur, fun _ h => h⟩
  · next hvalid =>
    have hval : isValidPosition (getNextPosition current d) maze = true := by
      by_contra hc
      exact hvalid (by simpa using hc)
    split
    · next hguard =>
      have hne : current ≠ getNextPosition current d :=
        ne_of_adj (adj_getNextPosition current d hd)
      have hdomgrow : ∀ p, (alGet st.gScore p).isSome →
          (alGet (alSet st.gScore (getNextPosition current d)
            ((alGet st.gScore current).getD 0 + 1)) p).isSome := by
        intro p hp
        rw [alGet_alSet]
        split
        · rfl
        · exact hp
      refine ⟨⟨⟨?_, ?_, ?_⟩, ?_⟩, ?_, hdomgrow⟩
      · intro n p h
        rw [alGet_alSet] at h
        split at h
        · next hn =>
          cases h
          exact ⟨⟨d, hd, hn⟩, hn ▸ hval⟩
        · exact hinv.1.1 n p h
      · intro n p h
        rw [alGet_alSet] at h
        split at h
        · cases h
          rw [alGet_alSet, if_neg hne]
          exact hcur
        · exact hdomgrow p (hinv.1.2.1 n p h)
      · intro n hg hn
        rw [alGet_alSet] at hn
        split at hn
        · cases hn
        · next hnne =>
          rw [alGet_alSet, if_neg hnne] at hg
          exact hinv.1.2.2 n hg hn
      · intro p hp
        simp only at hp
        split at hp
        · exact hdomgrow p (hinv.2 p hp)
        · rcases List.mem_append.mp hp with hp1 | hp1
          · exact hdomgrow p (hinv.2 p hp1)
          · have : p = getNextPosition current d := by simpa using hp1
            subst this
            rw [alGet_alSet, if_pos rfl]
            rfl
      · rw [alGet_alSet, if_neg hne]
        exact hcur
    · exact ⟨hinv, hcur, fun _ h => h⟩

/-- Folding the four neighbor relaxations preserves the loop invariant. -/
theorem foldl_relax_preserves {maze : Maze} {start goal current : GridPos}
    {l : List Dir} (hl : ∀ d ∈ l, d ≠ Dir.NONE) :
    ∀ {st : AStarState}, StInv maze start st →
      (alGet st.gScore current).isSome →
      StInv maze start (List.foldl (relaxDir maze goal current) st l) := by
  induction l with
  | nil => intro st h _; exact h
  | cons d l ih =>
    intro st hinv hcur
    have h1 := relaxDir_preserves goal (hl d (List.mem_cons_self d l)) hinv hcur
    exact ih (fun e he => hl e (List.mem_cons_of_mem d he)) h1.1 h1.2.1

/-- If path reconstruction terminates, the produced prefix runs from the
start to the cell it was launched from, consecutive cells are 4-adjacent,
and every cell after the first is valid. -/
theorem reconstructPath_sound {maze : Maze} {start : GridPos}
    {cf : List (GridPos × GridPos)} {g : List (GridPos × ℕ)}
    (hinv : CFInv maze start cf g) :
    ∀ (fuel : ℕ) (cur : GridPos) (acc L : List GridPos),
      (alGet g cur).isSome →
      reconstructPath cf fuel cur acc = some L →
      ∃ pre, pre ≠ [] ∧ L = pre ++ acc ∧ pre.head? = some start ∧
        pre.getLast? = some cur ∧ pre.Chain' Adj ∧
        (∀ p ∈ pre.tail, isValidPosition p maze = true) := by
  intro fuel
  induction fuel with
  | zero => intro cur acc L _ h; cases h
  | succ n ih =>
    intro cur acc L hcur h
    rw [reconstructPath] at h
    cases hcf : alGet cf cur with
    | none =>
      rw [hcf] at h
      cases h
      refine ⟨[cur], by simp, by simp, ?_, by simp, by simp, by simp⟩
      have : cur = start := hinv.2.2 cur hcur hcf
      simp [this]
    | some p =>
      rw [hcf] at h
      obtain ⟨pre, hpne, hL, hhead, hlast, hchain, htail⟩ :=
        ih p (cur :: acc) L (hinv.2.1 cur p hcf) h
      have hadj : Adj p cur := by
        obtain ⟨⟨d, hd, hnd⟩, _⟩ := hinv.1 cur p hcf
        exact hnd ▸ adj_getNextPosition p d hd
      have hvalcur : isValidPosition cur maze = true := (hinv.1 cur p hcf).2
      refine ⟨pre ++ [cur], by simp, ?_, ?_, ?_, ?_, ?_⟩
      · rw [hL, List.append_assoc]; rfl
      · cases pre with
        | nil => exact absurd rfl hpne
        | cons a t => simpa using hhead
      · simp
      · rw [List.chain'_append]
        refine ⟨hchain, List.chain'_singleton cur, ?_⟩
        intro x hx y hy
        rw [hlast] at hx
        cases hx
        simp only [List.head?_cons, Option.mem_def, Option.some.injEq] at hy
        exact hy ▸ hadj
      · intro q hq
        cases pre with
        | nil => exact absurd rfl hpne
        | cons a t =>
          simp only [List.cons_append, List.tail_cons] at hq
          rcases List.mem_append.mp hq with hq1 | hq1
          · exact htail q hq1
          · have : q = cur := by simpa using hq1
            exact this ▸ hvalcur

/-- Whenever the A* loop terminates from an invariant-satisfying state,
the result is either the empty path or a well-formed path from the start
to the goal. -/
theorem aStarLoop_sound {maze : Maze} {start goal : GridPos} :
    ∀ (fuel : ℕ) (st : AStarState), StInv maze start st →
      ∀ L, aStarLoop maze goal fuel st = some L →
        L = [] ∨ (L.head? = some start ∧ L.getLast? = some goal ∧
          L.Chain' Adj ∧ ∀ p ∈ L.tail, isValidPosition p maze = true) := by
  intro fuel
  induction fuel with
  | zero => intro st _ L h; cases h
  | succ n ih =>
    intro st hinv L h
    rw [aStarLoop] at h
    cases hos : st.openSet with
    | nil =>
      rw [hos] at h
      cases h
      exact Or.inl rfl
    | cons q rest =>
      rw [hos] at h
      simp only at h
      have hlt : minIndex st.fScore st.openSet < st.openSet.length := by
        apply minIndex_lt_length
        rw [hos]; simp
      have hmem : st.openSet.getD (minIndex st.fScore st.openSet) ⟨0, 0⟩
          ∈ st.openSet := getD_mem hlt ⟨0, 0⟩
      have hcur : (alGet st.gScore
          (st.openSet.getD (minIndex st.fScore st.openSet) ⟨0, 0⟩)).isSome :=
        hinv.2 _ hmem
      rw [← hos] at h
      split at h
      · next hgoal =>
        obtain ⟨pre, hpne, hL, hhead, hlast, hchain, htail⟩ :=
          reconstructPath_sound hinv.1 (n + 1) _ [] L hcur h
        right
        rw [hL, List.append_nil]
        exact ⟨hhead, hgoal ▸ hlast, hchain, htail⟩
      · refine ih _ ?_ L h
        refine foldl_relax_preserves
          (by intro d hd; fin_cases hd <;> simp) ⟨hinv.1, ?_⟩ hcur
        intro p hp
        exact hinv.2 p (List.mem_of_mem_eraseIdx hp)

/-- C10: if `findPathAStar` returns a non-empty path then the path begins
at the start, ends at the goal, every two consecutive positions in it are
4-adjacent grid cells (Manhattan distance 1), and every position after the
first is an in-bounds non-wall cell. -/
theorem findPathAStar_path_wellformed (fuel : ℕ) (maze : Maze)
    (s gl : GridPos) (L : List GridPos)
    (hs : isValidPosition s maze = true)
    (hgl : isValidPosition gl maze = true)
    (hrun : findPathAStar fuel s gl maze = some L) (hne : L ≠ []) :
    L.head? = some s ∧ L.getLast? = some gl ∧ L.Chain' Adj ∧
      ∀ p ∈ L.tail, isValidPosition p maze = true := by
  have hinit : StInv maze s
      { openSet := [s], cameFrom := [], gScore := alSet [] s 0,
        fScore := alSet [] s (manhattanDist s gl) } := by
    refine ⟨⟨?_, ?_, ?_⟩, ?_⟩
    · intro n p h; cases h
    · intro n p h; cases h
    · intro n hg _
      rw [alGet_alSet] at hg
      split at hg
      · assumption
      · cases hg
    · intro p hp
      have : p = s := by simpa using hp
      subst this
      rw [alGet_alSet, if_pos rfl]
      rfl
  rcases aStarLoop_sound fuel _ hinit L hrun with h | h
  · exact absurd h hne
  · exact h

/-- C10 witness: on the 1×2 corridor the path from `(0,0)` to `(1,0)` is
returned and well-formed. -/
theorem findPathAStar_path_wellformed_witness :
    isValidPosition ⟨0, 0⟩ corridor2 = true ∧
      isValidPosition ⟨1, 0⟩ corridor2 = true ∧
      findPathAStar 5 ⟨0, 0⟩ ⟨1, 0⟩ corridor2 =
        some [⟨0, 0⟩, ⟨1, 0⟩] ∧
      (([⟨0, 0⟩, ⟨1, 0⟩] : List GridPos).head? = some ⟨0, 0⟩ ∧
        ([⟨0, 0⟩, ⟨1, 0⟩] : List GridPos).getLast? = some ⟨1, 0⟩ ∧
        ([⟨0, 0⟩, ⟨1, 0⟩] : List GridPos).Chain' Adj ∧
        ∀ p ∈ ([⟨0, 0⟩, ⟨1, 0⟩] : List GridPos).tail,
          isValidPosition p corridor2 = true) :=
  ⟨rfl, rfl, rfl,
    findPathAStar_path_wellformed 5 corridor2 ⟨0, 0⟩ ⟨1, 0⟩
      [⟨0, 0⟩, ⟨1, 0⟩] rfl rfl rfl (by simp)⟩

/-- C1: the claim fails on the code.  On the 1×3 corridor of empty cells,
with in-bounds non-wall start `(0,0)` and reachable goal `(2,0)`,
`findPathAStar` never returns, for any amount of fuel: when the cell
`(1,0)` is expanded, the guard `tentativeGScore < (gScore.get(startKey)
|| Infinity)` misreads the start's stored `gScore` of `0` (which is falsy
in JavaScript) as `Infinity`, reassigns `cameFrom(start)`, and the
`while (cameFrom.has(currentKey))` reconstruction loop then cycles forever
between `(1,0)` and `(0,0)` instead of returning the three-cell path. -/
theorem findPathAStar_corridor_diverges :
    ∀ fuel, findPathAStar fuel ⟨0, 0⟩ ⟨2, 0⟩ corridor3 = none := by
  intro fuel
  match fuel with
  | 0 => rfl
  | 1 => rfl
  | 2 => rfl
  | n + 3 =>
    have hstep : findPathAStar (n + 3) ⟨0, 0⟩ ⟨2, 0⟩ corridor3
        = reconstructPath corridorCameFrom (n + 1) ⟨2, 0⟩ [] := rfl
    have hcyc := reconstructPath_cycle
      corridorCameFrom ⟨1, 0⟩ ⟨0, 0⟩ rfl rfl
    rw [hstep]
    match n with
    | 0 => rfl
    | k + 1 =>
      show reconstructPath corridorCameFrom (k + 2) ⟨2, 0⟩ [] = none
      rw [reconstructPath]
      show reconstructPath corridorCameFrom (k + 1) ⟨1, 0⟩ [⟨2, 0⟩] = none
      exact (hcyc (k + 1)).1 [⟨2, 0⟩]

end Pacman

